import Mathlib

/-!
Verification development for the PhysicianNotetaker repository.

The repository orchestrates calls to an external text-generation service and
validates the structured replies.  We embed the deterministic orchestration
code (schema validators, segment extraction, retry loops, aggregation,
serialization) as executable Lean definitions over a model of Python values.
The external generation service itself is modelled, as the design notes
prescribe, as an injected capability (an oracle function) so that every
embedded function is deterministic and executable.
-/

namespace PhysNote

/-- Model of the Python values that flow through this program: the values
`json.loads` can produce (floats excluded: no code path in the repository
builds or consumes a float) plus `None`, booleans, strings, lists and
dicts.  Dicts are insertion-ordered key/value lists, as in CPython. -/
inductive PyVal where
  | none
  | bool (b : Bool)
  | int (n : Int)
  | str (s : String)
  | list (xs : List PyVal)
  | dict (kvs : List (String × PyVal))

/-- Python errors that the embedded code can raise. -/
inductive PyErr where
  | keyError (k : String)
  | attributeError (tyName : String) (attr : String)
  | typeError (msg : String)
  | valueError (msg : String)
  | exception (msg : String)
deriving DecidableEq

/-- A single-quote character, kept out of string literals. -/
def sq : String := String.singleton (Char.ofNat 39)

/-- Python `type(v).__name__` for our value model. -/
def pyTypeName : PyVal → String
  | .none => "NoneType"
  | .bool _ => "bool"
  | .int _ => "int"
  | .str _ => "str"
  | .list _ => "list"
  | .dict _ => "dict"

/-- Python truthiness (`bool(v)`). -/
def pyTruthy : PyVal → Bool
  | .none => false
  | .bool b => b
  | .int n => n != 0
  | .str s => s != ""
  | .list xs => !xs.isEmpty
  | .dict kvs => !kvs.isEmpty

/-- `str(e)` for the errors we model.  CPython renders `KeyError` as the
repr of the missing key (a quoted string). -/
def errStr : PyErr → String
  | .keyError k => sq ++ k ++ sq
  | .attributeError ty attr => sq ++ ty ++ (" object has no attribute ") ++ sq ++ attr ++ sq
  | .typeError m => m
  | .valueError m => m
  | .exception m => m

mutual
/-- Python `str(v)`.  For nested containers CPython uses `repr`; our `pyRepr`
renders strings with single quotes and does not model CPython's escaping of
quote characters inside them (no claim exercises that corner). -/
def pyStr : PyVal → String
  | .none => "None"
  | .bool b => if b then "True" else "False"
  | .int n => toString n
  | .str s => s
  | .list xs => "[" ++ pyReprSeq xs ++ "]"
  | .dict kvs => "\x7b" ++ pyReprKVs kvs ++ "\x7d"

/-- Python `repr(v)`. -/
def pyRepr : PyVal → String
  | .str s => sq ++ s ++ sq
  | .none => "None"
  | .bool b => if b then "True" else "False"
  | .int n => toString n
  | .list xs => "[" ++ pyReprSeq xs ++ "]"
  | .dict kvs => "\x7b" ++ pyReprKVs kvs ++ "\x7d"

def pyReprSeq : List PyVal → String
  | [] => ""
  | [x] => pyRepr x
  | x :: xs => pyRepr x ++ ", " ++ pyReprSeq xs

def pyReprKVs : List (String × PyVal) → String
  | [] => ""
  | [(k, v)] => sq ++ k ++ sq ++ ": " ++ pyRepr v
  | (k, v) :: kvs => sq ++ k ++ sq ++ ": " ++ pyRepr v ++ ", " ++ pyReprKVs kvs
end

/-- First-match association lookup, the access path of a CPython dict
(keys are unique in every dict the program builds). -/
def dictLookup (kvs : List (String × PyVal)) (k : String) : Option PyVal :=
  match kvs with
  | [] => Option.none
  | (k', v) :: rest => if k' = k then some v else dictLookup rest k

/-- Python `d.get(key)` (default `None`). -/
def pyGet (kvs : List (String × PyVal)) (k : String) : PyVal :=
  (dictLookup kvs k).getD .none

/-- Python `d.get(key, default)`. -/
def pyGetD (kvs : List (String × PyVal)) (k : String) (d : PyVal) : PyVal :=
  (dictLookup kvs k).getD d

/-- Python whitespace for `str.strip()` (space, tab, newline, carriage
return, vertical tab, form feed; the additional Unicode space characters
Python also strips never occur in this program's data). -/
def isPySpace (c : Char) : Bool :=
  c = ' ' || c = '\t' || c = '\n' || c = '\r' || c = Char.ofNat 11 || c = Char.ofNat 12

/-- Python `str.strip()`. -/
def pyStrip (s : String) : String :=
  ⟨((s.toList.dropWhile isPySpace).reverse.dropWhile isPySpace).reverse⟩

/-- Python `str.lower()`; `Char.toLower` covers the ASCII letters, the only
ones the keyword tables of this program contain. -/
def pyLower (s : String) : String := s.toLower

/-- `needle.isPrefixOf` at some position of `hay`. -/
def listInfix (needle hay : List Char) : Bool :=
  needle.isPrefixOf hay ||
    match hay with
    | [] => false
    | _ :: t => listInfix needle t

/-- Python `needle in haystack` for strings (substring containment). -/
def strContains (haystack needle : String) : Bool :=
  listInfix needle.toList haystack.toList

/-- `MedicalNER._ensure_list` (src/medical_ner.py:51-58), character for
character the same function as `MedicalSummarizer._ensure_list`
(src/summarization.py:82-89): a list keeps the truthy elements, coerced to
`str` and stripped; a string becomes `[value.strip()]` when the strip is
non-empty and `[]` otherwise; anything else becomes `[]`. -/
def ensure_list : PyVal → List String
  | .list xs => (xs.filter pyTruthy).map (fun item => pyStrip (pyStr item))
  | .str s => if pyStrip s = "" then [] else [pyStrip s]
  | _ => []

/-- `ensure_list` re-wrapped as a Python list value. -/
def ensureListVal (v : PyVal) : PyVal :=
  .list ((ensure_list v).map .str)

/-- Python `value or default` (keep `value` when truthy). -/
def pyOr (v d : PyVal) : PyVal := if pyTruthy v then v else d

/-- Python `isinstance(v, dict)`. -/
def PyVal.isDict : PyVal → Bool
  | .dict _ => true
  | _ => false

/-- `MedicalNER._validate_result` (src/medical_ner.py:39-49). -/
def nerValidate (result : List (String × PyVal)) : PyVal :=
  .dict [
    ("Patient_Name", pyOr (pyGet result ("Patient_Name")) .none),
    ("Symptoms", ensureListVal (pyGetD result ("Symptoms") (.list []))),
    ("Diagnosis", pyOr (pyGet result ("Diagnosis")) .none),
    ("Treatment", ensureListVal (pyGetD result ("Treatment") (.list []))),
    ("Current_Status", pyOr (pyGet result ("Current_Status")) (.str ("Not specified"))),
    ("Prognosis", pyOr (pyGet result ("Prognosis")) .none)]

/-- The `result.get(section, {}).get(field)` access chain of the summary
validator: sub-field of `section` when that section is a dict, else `None`
(matching the guarding `isinstance(..., dict)` checks in the source). -/
def subGet (result : List (String × PyVal)) (sec field : String) : PyVal :=
  match pyGet result sec with
  | .dict m => pyGet m field
  | _ => .none

/-- `MedicalSummarizer._validate_summary` (src/summarization.py:60-80). -/
def summaryValidate (result : List (String × PyVal)) : PyVal :=
  .dict [
    ("Patient_Demographics", .dict [
      ("Name", if (pyGet result ("Patient_Demographics")).isDict
               then subGet result ("Patient_Demographics") ("Name") else .none),
      ("Age", if (pyGet result ("Patient_Demographics")).isDict
              then subGet result ("Patient_Demographics") ("Age") else .none),
      ("Gender", if (pyGet result ("Patient_Demographics")).isDict
                 then subGet result ("Patient_Demographics") ("Gender") else .none)]),
    ("Chief_Complaint", pyOr (pyGet result ("Chief_Complaint")) (.str ("Not specified"))),
    ("History_of_Present_Illness",
      pyOr (pyGet result ("History_of_Present_Illness")) (.str ("Not documented"))),
    ("Symptoms", .dict [
      ("Primary", ensureListVal (if (pyGet result ("Symptoms")).isDict
                                 then subGet result ("Symptoms") ("Primary") else .list [])),
      ("Secondary", ensureListVal (if (pyGet result ("Symptoms")).isDict
                                   then subGet result ("Symptoms") ("Secondary") else .list [])),
      ("Timeline", if (pyGet result ("Symptoms")).isDict
                   then subGet result ("Symptoms") ("Timeline") else .str ("Not specified"))]),
    ("Previous_Treatments", ensureListVal (pyGetD result ("Previous_Treatments") (.list []))),
    ("Current_Status", pyOr (pyGet result ("Current_Status")) (.str ("Not specified"))),
    ("Medical_Findings", pyOr (pyGet result ("Medical_Findings")) (.str ("Not documented"))),
    ("Clinical_Notes", pyOr (pyGet result ("Clinical_Notes")) (.str ("Not documented")))]

/-- The `result.get(section, {}).get(leaf, "Not documented") if
isinstance(result.get(section), dict) else "Not documented"` access pattern
of the SOAP validator. -/
def soapLeaf (result : List (String × PyVal)) (sec leaf : String) : PyVal :=
  match pyGet result sec with
  | .dict m => pyGetD m leaf (.str ("Not documented"))
  | _ => .str ("Not documented")

/-- `SOAPGenerator._validate_soap_result` (src/soap_generator.py:37-57). -/
def soapValidate (result : List (String × PyVal)) : PyVal :=
  .dict [
    ("Subjective", .dict [
      ("Chief_Complaint", soapLeaf result ("Subjective") ("Chief_Complaint")),
      ("History_of_Present_Illness", soapLeaf result ("Subjective") ("History_of_Present_Illness"))]),
    ("Objective", .dict [
      ("Physical_Exam", soapLeaf result ("Objective") ("Physical_Exam")),
      ("Observations", soapLeaf result ("Objective") ("Observations"))]),
    ("Assessment", .dict [
      ("Diagnosis", soapLeaf result ("Assessment") ("Diagnosis")),
      ("Severity", soapLeaf result ("Assessment") ("Severity"))]),
    ("Plan", .dict [
      ("Treatment", soapLeaf result ("Plan") ("Treatment")),
      ("Follow-Up", soapLeaf result ("Plan") ("Follow-Up"))])]

/-! ## Sentiment analysis (src/sentiment_analysis.py) -/

/-- Python `v.lower()`: succeeds on strings, raises `AttributeError` on any
other type. -/
def pyLowerE (v : PyVal) : Except PyErr String :=
  match v with
  | .str s => .ok (pyLower s)
  | v => .error (.attributeError (pyTypeName v) ("lower"))

def validSentiments : List String := ["Anxious", "Neutral", "Reassured"]

def validIntents : List String :=
  ["Seeking reassurance", "Reporting symptoms", "Expressing concern", "Other"]

/-- Python `v in xs` for a list of strings: only a `str` can compare equal. -/
def pyInStrList (v : PyVal) (xs : List String) : Bool :=
  match v with
  | .str s => xs.contains s
  | _ => false

/-- The sentiment branch of `_validate_sentiment_result`
(src/sentiment_analysis.py:47-55): exact match kept, otherwise keyword
containment on the lowercased label, otherwise `"Neutral"`. -/
def resolveSentiment (v : PyVal) : Except PyErr PyVal :=
  if pyInStrList v validSentiments then .ok v
  else
    match pyLowerE v with
    | .error e => .error e
    | .ok sl =>
      if strContains sl ("anxious") || strContains sl ("worried") || strContains sl ("concerned") then
        .ok (.str ("Anxious"))
      else if strContains sl ("reassured") || strContains sl ("relieved") || strContains sl ("better") then
        .ok (.str ("Reassured"))
      else .ok (.str ("Neutral"))

/-- The intent branch of `_validate_sentiment_result`
(src/sentiment_analysis.py:58-67). -/
def resolveIntent (v : PyVal) : Except PyErr PyVal :=
  if pyInStrList v validIntents then .ok v
  else
    match pyLowerE v with
    | .error e => .error e
    | .ok il =>
      if strContains il ("reassurance") then .ok (.str ("Seeking reassurance"))
      else if strContains il ("symptom") || strContains il ("reporting") then
        .ok (.str ("Reporting symptoms"))
      else if strContains il ("concern") || strContains il ("worried") then
        .ok (.str ("Expressing concern"))
      else .ok (.str ("Other"))

/-- `SentimentAnalyzer._validate_sentiment_result`
(src/sentiment_analysis.py:38-72), on the raw structured reply: returns the
`{"Sentiment": ..., "Intent": ...}` record, or raises (sentiment branch
first, as in the source). -/
def sentimentValidate (result : List (String × PyVal)) : Except PyErr PyVal :=
  match resolveSentiment (pyGetD result ("Sentiment") (.str ("Neutral"))) with
  | .error e => .error e
  | .ok s =>
    match resolveIntent (pyGetD result ("Intent") (.str ("Other"))) with
    | .error e => .error e
    | .ok i => .ok (.dict [("Sentiment", s), ("Intent", i)])

/-! ## A small backtracking regular-expression engine

`extract_patient_segments` is built on `re.findall` / `re.split`.  The
engine below covers exactly the constructs its patterns use: literal
characters (matched case-insensitively, for `re.IGNORECASE`), character
classes, greedy `+` `*` `?`, lazy `+?`, alternation, lookahead `(?=...)`
and `\Z`.  `reMatches` returns every suffix at which a match of `r` can
end, in CPython's backtracking priority order, so taking the first success
reproduces `re`'s leftmost/greedy/lazy semantics.  The fuel argument
bounds the recursion depth (one unit per engine step, so the definition is
structural and computes by kernel reduction); on the patterns used here a
path descends at most a few steps per pattern node plus a bounded number
of steps per consumed character, so call sites pass the generous bound
`(length + 2) * 16`, which no path can exhaust. -/

inductive RE where
  | eps
  | ch (p : Char → Bool)
  | seq (a b : RE)
  | alt (a b : RE)
  | plusG (r : RE)
  | plusL (r : RE)
  | starG (r : RE)
  | optG (r : RE)
  | look (r : RE)
  | endS

def reMatches : (fuel : Nat) → (r : RE) → List Char → List (List Char)
  | 0, _, _ => []
  | _ + 1, .eps, cs => [cs]
  | _ + 1, .ch _, [] => []
  | _ + 1, .ch p, c :: cs => if p c then [cs] else []
  | fuel + 1, .seq a b, cs => (reMatches fuel a cs).flatMap (fun r1 => reMatches fuel b r1)
  | fuel + 1, .alt a b, cs => reMatches fuel a cs ++ reMatches fuel b cs
  | fuel + 1, .plusG r, cs =>
    (reMatches fuel r cs).flatMap (fun rest => reMatches fuel (.plusG r) rest ++ [rest])
  | fuel + 1, .plusL r, cs =>
    (reMatches fuel r cs).flatMap (fun rest => rest :: reMatches fuel (.plusL r) rest)
  | fuel + 1, .starG r, cs =>
    (reMatches fuel r cs).flatMap (fun rest => reMatches fuel (.starG r) rest) ++ [cs]
  | fuel + 1, .optG r, cs => reMatches fuel r cs ++ [cs]
  | fuel + 1, .look r, cs => if (reMatches fuel r cs).isEmpty then [] else [cs]
  | _ + 1, .endS, cs => if cs.isEmpty then [[]] else []

/-- One case-insensitive literal character (`re.IGNORECASE`). -/
def ciChar (c : Char) : RE := .ch (fun x => x.toLower = c.toLower)

/-- A case-insensitive literal string. -/
def ciLit (s : String) : RE := (s.toList.map ciChar).foldr .seq .eps

/-- A compiled pattern with exactly one capturing group, split as
prefix / group / suffix, the shape of all three patterns in the source. -/
structure Pat where
  pre : RE
  grp : RE
  post : RE

def firstSome (f : α → Option β) : List α → Option β
  | [] => Option.none
  | x :: xs => match f x with | some b => some b | Option.none => firstSome f xs

/-- Try to match `p` anchored at `cs`; on success return the text captured
by the group and the remaining input, exploring alternatives in
backtracking priority order exactly as CPython `re` does. -/
def tryAt (p : Pat) (cs : List Char) : Option (String × List Char) :=
  let fuel := (cs.length + 2) * 16
  firstSome (fun r1 =>
    firstSome (fun r2 =>
      firstSome (fun r3 => some (⟨r1.take (r1.length - r2.length)⟩, r3))
        (reMatches fuel p.post r2))
      (reMatches fuel p.grp r1))
    (reMatches fuel p.pre cs)

/-- `re.findall` for a single-group pattern: scan left to right, collect
group captures of non-overlapping matches, resuming after each match. -/
def findAll : Nat → Pat → List Char → List String
  | 0, _, _ => []
  | fuel+1, p, cs =>
    match tryAt p cs with
    | some (g, rest) =>
      if rest.length = cs.length then
        g :: (match cs with | [] => [] | _ :: t => findAll fuel p t)
      else g :: findAll fuel p rest
    | Option.none => match cs with | [] => [] | _ :: t => findAll fuel p t

/-- `.` under `re.DOTALL` (all three findall patterns are compiled with
`re.IGNORECASE | re.DOTALL`). -/
def anyCh : RE := .ch (fun _ => true)

/-- `\s`. -/
def spaceCh : RE := .ch isPySpace

/-- `r'Patient[:\s]+["\']?([^"]+)["\']?'` (src/sentiment_analysis.py:88). -/
def pat1 : Pat :=
  ⟨.seq (ciLit ("Patient"))
     (.seq (.plusG (.ch (fun c => c = ':' || isPySpace c)))
        (.optG (.ch (fun c => c = '"' || c = Char.ofNat 39)))),
   .plusG (.ch (fun c => c != '"')),
   .optG (.ch (fun c => c = '"' || c = Char.ofNat 39))⟩

/-- `r'Patient:\s*(.+?)(?=\n(?:Physician|Doctor|\[))'`
(src/sentiment_analysis.py:89). -/
def pat2 : Pat :=
  ⟨.seq (ciLit ("Patient:")) (.starG spaceCh),
   .plusL anyCh,
   .look (.seq (.ch (fun c => c = '\n'))
      (.alt (ciLit ("Physician")) (.alt (ciLit ("Doctor")) (.ch (fun c => c = '[')))))⟩

/-- `r'\*\*Patient:\*\*\s*(.+?)(?=\n\*\*Physician|\n\*\*Doctor|\Z)'`
(src/sentiment_analysis.py:90). -/
def pat3 : Pat :=
  ⟨.seq (ciLit ("**Patient:**")) (.starG spaceCh),
   .plusL anyCh,
   .look (.alt (ciLit ("\n**Physician")) (.alt (ciLit ("\n**Doctor")) .endS))⟩

def patPatterns : List Pat := [pat1, pat2, pat3]

/-- `r'patient[:\s]+'` with `re.IGNORECASE`, the fallback split pattern
(src/sentiment_analysis.py:104). -/
def splitRE : RE :=
  .seq (ciLit ("patient")) (.plusG (.ch (fun c => c = ':' || isPySpace c)))

/-- `re.split` for a group-free pattern: cut the input at every match. -/
def reSplitGo : Nat → RE → List Char → List Char → List String
  | 0, _, cs, acc => [⟨acc.reverse ++ cs⟩]
  | fuel+1, r, cs, acc =>
    match (reMatches ((cs.length + 2) * 16) r cs).head? with
    | some rest =>
      if rest.length = cs.length then
        match cs with
        | [] => [⟨acc.reverse⟩]
        | c :: t => reSplitGo fuel r t (c :: acc)
      else ⟨acc.reverse⟩ :: reSplitGo fuel r rest []
    | Option.none =>
      match cs with
      | [] => [⟨acc.reverse⟩]
      | c :: t => reSplitGo fuel r t (c :: acc)

def reSplit (r : RE) (cs : List Char) : List String := reSplitGo (cs.length + 1) r cs []

/-- `SentimentAnalyzer.extract_patient_segments`
(src/sentiment_analysis.py:74-108): run all three findall patterns in
order, keeping every stripped non-empty capture; when none fires, fall back
to a case-insensitive line scan splitting each patient-marked line on
`patient[:\s]+` and taking the text after the first marker. -/
def extract_patient_segments (transcript : String) : List String :=
  let cs := transcript.toList
  let fuel := cs.length + 1
  let captures := (patPatterns.map (fun p => findAll fuel p cs)).flatten
  let segs := (captures.map pyStrip).filter (fun s => s ≠ "")
  if segs.isEmpty then
    ((transcript.splitOn ("\n")).map (fun line =>
      let ll := pyLower line
      if strContains ll ("patient:") || strContains ll ("patient ") then
        match reSplit splitRE line.toList with
        | _ :: p1 :: _ => [pyStrip p1]
        | _ => []
      else [])).flatten
  else segs

/-- `xs.count x` for lists of strings. -/
def countEq (xs : List String) (x : String) : Nat := (xs.filter (fun y => y = x)).length

/-- `max(set(xs), key=xs.count)`: the value with the maximal count, ties
broken by iteration order.  CPython iterates a `set` in an unspecified
order; we fix first-occurrence order.  Every claim that touches this
function only exercises the `xs = []` default branch, which bypasses it. -/
def pyModeMax (xs : List String) : String :=
  match xs.dedup with
  | [] => ""
  | d :: ds => ds.foldl (fun best c => if countEq xs c > countEq xs best then c else best) d

/-- `segment[:100] + "..." if len(segment) > 100 else segment`. -/
def truncSeg (s : String) : String :=
  if s.length > 100 then (⟨s.toList.take 100⟩ : String) ++ ("...") else s

def mkSentReport (overallS overallI : String) (analyzed : Nat) (details : List PyVal) : PyVal :=
  .dict [("Overall_Sentiment", .str overallS), ("Overall_Intent", .str overallI),
         ("Segments_Analyzed", .int (analyzed : Int)), ("Segment_Details", .list details)]

/-- The per-segment loop of `analyze_full_transcript`
(src/sentiment_analysis.py:137-157).  `analyze` is the injected
`analyze_sentiment` capability (one Generation-Client call plus
validation); the second component of the result is the list of texts it was
called on.  An exception from `analyze` propagates, as in the source. -/
def aftLoop (analyze : String → Except PyErr (String × String)) :
    List String → List PyVal → List String → List String → List String →
    (Except PyErr PyVal) × List String
  | [], details, sents, ints, log =>
    (.ok (mkSentReport (if sents.isEmpty then "Neutral" else pyModeMax sents)
                       (if ints.isEmpty then "Other" else pyModeMax ints)
                       details.length details), log)
  | seg :: rest, details, sents, ints, log =>
    if seg.length > 10 then
      match analyze seg with
      | .error e => (.error e, log ++ [seg])
      | .ok (s, i) =>
        aftLoop analyze rest
          (details ++ [.dict [("Text", .str (truncSeg seg)),
                              ("Sentiment", .str s), ("Intent", .str i)]])
          (sents ++ [s]) (ints ++ [i]) (log ++ [seg])
    else aftLoop analyze rest details sents ints log

/-- `SentimentAnalyzer.analyze_full_transcript`
(src/sentiment_analysis.py:110-157). -/
def analyze_full_transcript (analyze : String → Except PyErr (String × String))
    (transcript : String) : (Except PyErr PyVal) × List String :=
  let segs := extract_patient_segments transcript
  if segs.isEmpty then
    let combined := String.intercalate (" ") ((transcript.splitOn ("\n")).take 5)
    match analyze combined with
    | .error e => (.error e, [combined])
    | .ok (s, i) => (.ok (mkSentReport s i 0 []), [combined])
  else aftLoop analyze segs [] [] [] []

/-! ## JSON serialization: `json.dumps(v, indent=2)` with CPython defaults

`ensure_ascii=True`: `"`/`\` and the named control characters get two-byte
escapes, every other character outside printable ASCII becomes `\uXXXX`
(lowercase hex), astral characters become a UTF-16 surrogate pair.
Containers are pretty-printed with two-space indentation, separators
`(',', ': ')`, and empty containers inline. -/

def digitChar (n : Nat) : Char := Char.ofNat (48 + n)

def hexDigitChar (n : Nat) : Char :=
  if n < 10 then Char.ofNat (48 + n) else Char.ofNat (87 + n)

def uEsc (n : Nat) : List Char :=
  ['\\', 'u', hexDigitChar (n / 4096 % 16), hexDigitChar (n / 256 % 16),
   hexDigitChar (n / 16 % 16), hexDigitChar (n % 16)]

def escChar (c : Char) : List Char :=
  if c = '"' then ['\\', '"']
  else if c = '\\' then ['\\', '\\']
  else if c = '\n' then ['\\', 'n']
  else if c = '\t' then ['\\', 't']
  else if c = '\r' then ['\\', 'r']
  else if c.toNat = 8 then ['\\', 'b']
  else if c.toNat = 12 then ['\\', 'f']
  else if c.toNat < 0x20 ∨ 0x7e < c.toNat then
    if c.toNat < 0x10000 then uEsc c.toNat
    else uEsc (0xD800 + (c.toNat - 0x10000) / 0x400) ++ uEsc (0xDC00 + (c.toNat - 0x10000) % 0x400)
  else [c]

def escStr (s : String) : List Char :=
  '"' :: (s.toList.flatMap escChar ++ ['"'])

/-- Decimal digits of a natural number. -/
def natDigs (n : Nat) : List Char :=
  if _h : n < 10 then [digitChar n] else natDigs (n / 10) ++ [digitChar (n % 10)]
decreasing_by exact Nat.div_lt_self (by omega) (by omega)

def intChars (n : Int) : List Char :=
  if n < 0 then '-' :: natDigs n.natAbs else natDigs n.natAbs

/-- Newline plus the two-space indentation at nesting depth `lvl`. -/
def nlInd (lvl : Nat) : List Char := '\n' :: List.replicate (2 * lvl) ' '

mutual
def emit : Nat → PyVal → List Char
  | _, .none => ['n', 'u', 'l', 'l']
  | _, .bool true => ['t', 'r', 'u', 'e']
  | _, .bool false => ['f', 'a', 'l', 's', 'e']
  | _, .int n => intChars n
  | _, .str s => escStr s
  | _, .list [] => ['[', ']']
  | lvl, .list (x :: xs) =>
    '[' :: (nlInd (lvl + 1) ++ emit (lvl + 1) x ++ emitArrRest (lvl + 1) xs ++ nlInd lvl ++ [']'])
  | _, .dict [] => ['\x7b', '\x7d']
  | lvl, .dict ((k, v) :: kvs) =>
    '\x7b' :: (nlInd (lvl + 1) ++ escStr k ++ [':', ' '] ++ emit (lvl + 1) v ++
      emitObjRest (lvl + 1) kvs ++ nlInd lvl ++ ['\x7d'])

def emitArrRest : Nat → List PyVal → List Char
  | _, [] => []
  | lvl, x :: xs => ',' :: (nlInd lvl ++ emit lvl x ++ emitArrRest lvl xs)

def emitObjRest : Nat → List (String × PyVal) → List Char
  | _, [] => []
  | lvl, (k, v) :: kvs =>
    ',' :: (nlInd lvl ++ escStr k ++ [':', ' '] ++ emit lvl v ++ emitObjRest lvl kvs)
end

/-- `json.dumps(v, indent=2)`. -/
def pyJsonDumps (v : PyVal) : String := ⟨emit 0 v⟩

/-! ## JSON parsing: `json.loads`

Faithful to `json.loads` on every text `pyJsonDumps` can produce.  Known
divergences, none reachable from this program's data: float literals are
rejected (the program never builds a float), lone surrogate escapes are
rejected (Lean characters cannot carry them; `dumps` never emits them),
unescaped control characters inside strings are accepted, leading
zeros in numbers are accepted, and duplicate object keys are all kept
rather than last-wins (a Python dict, the only source of serialized
objects, cannot carry duplicates). -/

def isWsJ (c : Char) : Bool := c = ' ' || c = '\t' || c = '\n' || c = '\r'

def skipWs : List Char → List Char
  | [] => []
  | c :: cs => if isWsJ c then skipWs cs else c :: cs

/-- `'0' ≤ c ≤ '9'`, via the code points 48–57. -/
def isDigitCh (c : Char) : Bool := 48 ≤ c.toNat && c.toNat ≤ 57

def digitVal (c : Char) : Nat := c.toNat - 48

/-- Hex digit value: `0-9`, `a-f`, `A-F` (code points 48-57, 97-102, 65-70). -/
def hexVal (c : Char) : Option Nat :=
  if 48 ≤ c.toNat && c.toNat ≤ 57 then some (c.toNat - 48)
  else if 97 ≤ c.toNat && c.toNat ≤ 102 then some (c.toNat - 87)
  else if 65 ≤ c.toNat && c.toNat ≤ 70 then some (c.toNat - 55)
  else Option.none

def parse4Hex : List Char → Option (Nat × List Char)
  | a :: b :: c :: d :: rest => do
    let x ← hexVal a
    let y ← hexVal b
    let z ← hexVal c
    let w ← hexVal d
    some (x * 4096 + y * 256 + z * 16 + w, rest)
  | _ => Option.none

def parseDigitsGo : Nat → List Char → Nat × List Char
  | acc, [] => (acc, [])
  | acc, c :: cs =>
    if isDigitCh c then parseDigitsGo (10 * acc + digitVal c) cs else (acc, c :: cs)

def unescCh : Char → Option Char
  | '"' => some '"'
  | '\\' => some '\\'
  | '/' => some '/'
  | 'b' => some (Char.ofNat 8)
  | 'f' => some (Char.ofNat 12)
  | 'n' => some '\n'
  | 'r' => some '\r'
  | 't' => some '\t'
  | _ => Option.none

/-- Body of a JSON string after the opening quote: the decoded characters
and the input after the closing quote.  A high surrogate escape must be
followed by a low one (as in every pair `dumps` emits). -/
def parseStrBody : Nat → List Char → Option (List Char × List Char)
  | 0, _ => Option.none
  | fuel + 1, cs =>
    match cs with
    | [] => Option.none
    | c :: rest =>
      if c = '"' then some ([], rest)
      else if c = '\\' then
        match rest with
        | [] => Option.none
        | e :: t =>
          if e = 'u' then
            match parse4Hex t with
            | Option.none => Option.none
            | some (n, t1) =>
              if 0xD800 ≤ n ∧ n ≤ 0xDBFF then
                match t1 with
                | '\\' :: 'u' :: t2 =>
                  (match parse4Hex t2 with
                   | Option.none => Option.none
                   | some (m, t3) =>
                     if 0xDC00 ≤ m ∧ m ≤ 0xDFFF then
                       (parseStrBody fuel t3).map (fun p =>
                         (Char.ofNat (0x10000 + (n - 0xD800) * 0x400 + (m - 0xDC00)) :: p.1,
                          p.2))
                     else Option.none)
                | _ => Option.none
              else if 0xDC00 ≤ n ∧ n ≤ 0xDFFF then Option.none
              else (parseStrBody fuel t1).map (fun p => (Char.ofNat n :: p.1, p.2))
          else
            match unescCh e with
            | some u => (parseStrBody fuel t).map (fun p => (u :: p.1, p.2))
            | Option.none => Option.none
      else (parseStrBody fuel rest).map (fun p => (c :: p.1, p.2))

/-- Consume an expected literal suffix. -/
def dropLit : List Char → List Char → Option (List Char)
  | [], rest => some rest
  | c :: cs, d :: rest => if d = c then dropLit cs rest else Option.none
  | _ :: _, [] => Option.none

mutual
/-- Parse one JSON value; the input must already start at a value token. -/
def parseVal : Nat → List Char → Option (PyVal × List Char)
  | 0, _ => Option.none
  | fuel + 1, cs =>
    match cs with
    | [] => Option.none
    | c :: rest =>
      if c = 'n' then (dropLit (['u', 'l', 'l']) rest).map (fun r => (PyVal.none, r))
      else if c = 't' then (dropLit (['r', 'u', 'e']) rest).map (fun r => (.bool true, r))
      else if c = 'f' then (dropLit (['a', 'l', 's', 'e']) rest).map (fun r => (.bool false, r))
      else if c = '"' then
        (parseStrBody (rest.length + 1) rest).map (fun p => (.str ⟨p.1⟩, p.2))
      else if c = '[' then
        (match skipWs rest with
         | [] => Option.none
         | d :: r2 =>
           if d = ']' then some (.list [], r2)
           else (parseArrItems fuel (d :: r2)).map (fun p => (.list p.1, p.2)))
      else if c = '\x7b' then
        (match skipWs rest with
         | [] => Option.none
         | d :: r2 =>
           if d = '\x7d' then some (.dict [], r2)
           else (parseObjItems fuel (d :: r2)).map (fun p => (.dict p.1, p.2)))
      else if c = '-' then
        (match rest with
         | [] => Option.none
         | d :: _ =>
           if isDigitCh d then
             let p := parseDigitsGo 0 rest
             some (.int (-(p.1 : Int)), p.2)
           else Option.none)
      else if isDigitCh c then
        let p := parseDigitsGo 0 (c :: rest)
        some (.int (p.1 : Int), p.2)
      else Option.none

def parseArrItems : Nat → List Char → Option (List PyVal × List Char)
  | 0, _ => Option.none
  | fuel + 1, cs =>
    match parseVal fuel cs with
    | Option.none => Option.none
    | some (v, r1) =>
      match skipWs r1 with
      | [] => Option.none
      | d :: r2 =>
        if d = ',' then
          match parseArrItems fuel (skipWs r2) with
          | Option.none => Option.none
          | some (vs, r3) => some (v :: vs, r3)
        else if d = ']' then some ([v], r2)
        else Option.none

def parseObjItems : Nat → List Char → Option (List (String × PyVal) × List Char)
  | 0, _ => Option.none
  | fuel + 1, cs =>
    match cs with
    | '"' :: r0 =>
      (match parseStrBody (r0.length + 1) r0 with
       | Option.none => Option.none
       | some (kcs, r1) =>
         match skipWs r1 with
         | [] => Option.none
         | d :: r2 =>
           if d = ':' then
             match parseVal fuel (skipWs r2) with
             | Option.none => Option.none
             | some (v, r3) =>
               match skipWs r3 with
               | [] => Option.none
               | d2 :: r4 =>
                 if d2 = ',' then
                   match parseObjItems fuel (skipWs r4) with
                   | Option.none => Option.none
                   | some (kvs, r5) => some ((⟨kcs⟩, v) :: kvs, r5)
                 else if d2 = '\x7d' then some ([(⟨kcs⟩, v)], r4)
                 else Option.none
           else Option.none)
    | _ => Option.none
end

/-- `json.loads`: parse one value, allowing surrounding whitespace and
rejecting trailing garbage. -/
def pyJsonLoads (s : String) : Option PyVal :=
  let cs := skipWs s.toList
  match parseVal (cs.length + 1) cs with
  | some (v, rest) => if (skipWs rest).isEmpty then some v else Option.none
  | Option.none => Option.none

/-! ## Generation client (src/gemini_client.py)

The generation service is an injected oracle `gen : Nat → Except String
String`: the outcome (text or error message) of the i-th underlying
`model.generate_content` call made during one client-method invocation.
A Python function can finish by returning a value (possibly the implicit
`None`) or by raising; `PyResult` distinguishes the three.  Each client
function also reports the list of `time.sleep` durations it performed,
so the backoff schedule is part of the verified behavior. -/

inductive PyResult (α : Type) where
  | ret (v : Option α)
  | exn (msg : String)

/-- The retry loop of `generate_text` (src/gemini_client.py:71-86), at
`attempt`, with `fuel` loop iterations left (`fuel = max_retries -
attempt` throughout).  When the loop ends without returning, the function
returns Python's implicit `None`. -/
def gtGo (gen : Nat → Except String String) (max_retries : Nat) (d : ℚ) :
    Nat → Nat → PyResult String × List ℚ
  | _, 0 => (.ret Option.none, [])
  | attempt, fuel + 1 =>
    match gen attempt with
    | .ok t => (.ret (some t), [])
    | .error e =>
      if attempt < max_retries - 1 then
        let r := gtGo gen max_retries d (attempt + 1) fuel
        (r.1, d * ((attempt + 1 : Nat) : ℚ) :: r.2)
      else
        (.exn (("Failed to generate text after ") ++ toString max_retries ++
               (" attempts: ") ++ e), [])

/-- `GeminiClient.generate_text` (src/gemini_client.py:52-86). -/
def generate_text (gen : Nat → Except String String) (max_retries : Nat) (d : ℚ) :
    PyResult String × List ℚ :=
  gtGo gen max_retries d 0 max_retries

/-- The response-cleaning step of `generate_json`
(src/gemini_client.py:114-121): strip, drop a leading ```json or ```
fence, drop a trailing ``` fence, strip again. -/
def stripFences (text : String) : String :=
  let l0 := (pyStrip text).toList
  let l1 := if (("```json").toList).isPrefixOf l0 then l0.drop 7
            else if (("```").toList).isPrefixOf l0 then l0.drop 3
            else l0
  let l2 := if (("```").toList.reverse).isPrefixOf l1.reverse then l1.take (l1.length - 3)
            else l1
  pyStrip ⟨l2⟩

/-- The retry loop of `generate_json` (src/gemini_client.py:109-133).
Each attempt makes one underlying generation call (`generate_text` with
`max_retries=1` makes exactly one), so the oracle is indexed by the outer
attempt.  A `json.JSONDecodeError` is retried; on exhaustion the source
raises a message ending in `str(e)` — the positional detail CPython puts
there is a stdlib internal we do not model, and no claim depends on it.
Any other exception is also retried, and on the last attempt the bare
`raise` re-raises it unchanged.  (If the inner call returned `None`,
`None.strip()` would raise `AttributeError`; unreachable, since
`generate_text` with `max_retries=1` never returns `None`.) -/
def gjGo (gen : Nat → Except String String) (max_retries : Nat) (d : ℚ) :
    Nat → Nat → PyResult PyVal × List ℚ
  | _, 0 => (.ret Option.none, [])
  | attempt, fuel + 1 =>
    match (generate_text (fun _ => gen attempt) 1 1).1 with
    | .ret (some text) =>
      (match pyJsonLoads (stripFences text) with
       | some v => (.ret (some v), [])
       | Option.none =>
         if attempt < max_retries - 1 then
           let r := gjGo gen max_retries d (attempt + 1) fuel
           (r.1, d * ((attempt + 1 : Nat) : ℚ) :: r.2)
         else
           (.exn (("Failed to parse JSON response after ") ++ toString max_retries ++
                  (" attempts")), []))
    | .exn msg =>
      if attempt < max_retries - 1 then
        let r := gjGo gen max_retries d (attempt + 1) fuel
        (r.1, d * ((attempt + 1 : Nat) : ℚ) :: r.2)
      else (.exn msg, [])
    | .ret Option.none =>
      if attempt < max_retries - 1 then
        let r := gjGo gen max_retries d (attempt + 1) fuel
        (r.1, d * ((attempt + 1 : Nat) : ℚ) :: r.2)
      else (.exn (errStr (.attributeError ("NoneType") ("strip"))), [])

/-- `GeminiClient.generate_json` (src/gemini_client.py:88-133). -/
def generate_json (gen : Nat → Except String String) (max_retries : Nat) (d : ℚ) :
    PyResult PyVal × List ℚ :=
  gjGo gen max_retries d 0 max_retries

/-! ## Pipeline aggregation and rendering (src/pipeline.py) -/

/-- One task slot of `process_transcript`: the assignment inside `try`
succeeds with the task's value, or the `except` replaces it with
`{"error": str(e)}` (src/pipeline.py:52-74). -/
def opResult (o : Except PyErr PyVal) : PyVal :=
  match o with
  | .ok v => v
  | .error e => .dict [("error", .str (errStr e))]

/-- `PhysicianNotetakerPipeline.process_transcript` (src/pipeline.py:33-76).
The four analysis operations (each a Generation-Client call composed with
its validator) are injected as `Except` oracles.  The second component
lists the operations executed, in order: every operation runs regardless
of the outcomes of the ones before it, and the function itself always
returns a report (no exception escapes the per-task handlers). -/
def process_transcript (opNER opSum opSent opSOAP : Except PyErr PyVal)
    (include_soap : Bool) : PyVal × List String :=
  (.dict [("Medical_NER", opResult opNER),
          ("Summarization", opResult opSum),
          ("Sentiment_Analysis", opResult opSent),
          ("SOAP_Note", if include_soap then opResult opSOAP else .dict [])],
   ["Medical_NER", "Summarization", "Sentiment_Analysis"] ++
     (if include_soap then [("SOAP_Note" : String)] else []))

/-- Python `v[k]` for a string key: dict lookup, `KeyError` when missing,
`TypeError` on non-dicts (whose exact CPython message we do not model). -/
def pySubscript (v : PyVal) (k : String) : Except PyErr PyVal :=
  match v with
  | .dict kvs =>
    (match dictLookup kvs k with
     | some x => .ok x
     | Option.none => .error (.keyError k))
  | v => .error (.typeError ((pyTypeName v) ++ (" is not subscriptable")))

/-- Python `needle in v` (`str` needle): key membership for dicts,
substring for strings, element equality for lists; `TypeError` otherwise. -/
def pyContains (needle : String) (v : PyVal) : Except PyErr Bool :=
  match v with
  | .dict kvs => .ok ((dictLookup kvs needle).isSome)
  | .str s => .ok (strContains s needle)
  | .list xs => .ok (xs.any (fun x => match x with | .str t => t = needle | _ => false))
  | v => .error (.typeError (("argument of type ") ++ pyTypeName v ++ (" is not iterable")))

/-- Python `v.get(k, default)` on a possibly non-dict value. -/
def pyGetE (v : PyVal) (k : String) (dflt : PyVal) : Except PyErr PyVal :=
  match v with
  | .dict kvs => .ok (pyGetD kvs k dflt)
  | v => .error (.attributeError (pyTypeName v) ("get"))

/-- The left-to-right element check of `str.join` on a list: fails with
`TypeError` at the first non-string element (CPython's message also names
the item index, which we do not model). -/
def joinStrs : List PyVal → Except PyErr (List String)
  | [] => .ok []
  | .str t :: xs =>
    (match joinStrs xs with
     | .error e => .error e
     | .ok ts => .ok (t :: ts))
  | x :: _ =>
    .error (.typeError (("sequence item: expected str instance, ") ++
      pyTypeName x ++ (" found")))

/-- Python `sep.join(v)`: list of strings, a string (joining its
characters), or a dict (joining its keys); `TypeError` otherwise or on a
non-string element. -/
def pyJoin (sep : String) (v : PyVal) : Except PyErr String :=
  match v with
  | .list xs =>
    (match joinStrs xs with
     | .error e => .error e
     | .ok strs => .ok (String.intercalate sep strs))
  | .str s => .ok (String.intercalate sep (s.toList.map String.singleton))
  | .dict kvs => .ok (String.intercalate sep (kvs.map (fun kv => kv.1)))
  | v => .error (.typeError (("can only join an iterable, not ") ++ pyTypeName v))

def eq50 : String := ⟨List.replicate 50 '='⟩
def eq60 : String := ⟨List.replicate 60 '='⟩
def dash60 : String := ⟨List.replicate 60 '-'⟩

/-- The `format_type="text"` branch of `SOAPGenerator.format_soap_note`
(src/soap_generator.py:74-94).  The source subscripts the same section
dict once per line; subscripting is pure, so binding each section once
yields the same string and the same first error. -/
def format_soap_note_text (soap_note : PyVal) : Except PyErr String := do
  let subj ← pySubscript soap_note ("Subjective")
  let cc ← pySubscript subj ("Chief_Complaint")
  let hpi ← pySubscript subj ("History_of_Present_Illness")
  let obj ← pySubscript soap_note ("Objective")
  let pe ← pySubscript obj ("Physical_Exam")
  let obs ← pySubscript obj ("Observations")
  let asmt ← pySubscript soap_note ("Assessment")
  let dg ← pySubscript asmt ("Diagnosis")
  let sv ← pySubscript asmt ("Severity")
  let plan ← pySubscript soap_note ("Plan")
  let tr ← pySubscript plan ("Treatment")
  let fu ← pySubscript plan ("Follow-Up")
  .ok (("SOAP NOTE\n") ++ eq50 ++ ("\n\n") ++
       ("SUBJECTIVE:\n") ++ ("  Chief Complaint: ") ++ pyStr cc ++ ("\n") ++
       ("  History of Present Illness: ") ++ pyStr hpi ++ ("\n\n") ++
       ("OBJECTIVE:\n") ++ ("  Physical Exam: ") ++ pyStr pe ++ ("\n") ++
       ("  Observations: ") ++ pyStr obs ++ ("\n\n") ++
       ("ASSESSMENT:\n") ++ ("  Diagnosis: ") ++ pyStr dg ++ ("\n") ++
       ("  Severity: ") ++ pyStr sv ++ ("\n\n") ++
       ("PLAN:\n") ++ ("  Treatment: ") ++ pyStr tr ++ ("\n") ++
       ("  Follow-Up: ") ++ pyStr fu ++ ("\n"))

/-- The `MEDICAL ENTITIES` section of the text renderer
(src/pipeline.py:126-139). -/
def renderNER (results : List (String × PyVal)) : Except PyErr String :=
  match dictLookup results ("Medical_NER") with
  | Option.none => .ok ""
  | some ner => do
    let hasErr ← pyContains ("error") ner
    let body ←
      if !hasErr then do
        let pn ← pyGetE ner ("Patient_Name") (.str ("N/A"))
        let sy ← pyGetE ner ("Symptoms") (.list [])
        let sys ← pyJoin (", ") sy
        let dg ← pyGetE ner ("Diagnosis") (.str ("N/A"))
        let tr ← pyGetE ner ("Treatment") (.list [])
        let trs ← pyJoin (", ") tr
        let cst ← pyGetE ner ("Current_Status") (.str ("N/A"))
        let pg ← pyGetE ner ("Prognosis") (.str ("N/A"))
        Except.ok (("Patient Name: ") ++ pyStr pn ++ ("\n") ++
             ("Symptoms: ") ++ sys ++ ("\n") ++
             ("Diagnosis: ") ++ pyStr dg ++ ("\n") ++
             ("Treatment: ") ++ trs ++ ("\n") ++
             ("Current Status: ") ++ pyStr cst ++ ("\n") ++
             ("Prognosis: ") ++ pyStr pg ++ ("\n"))
      else do
        let ev ← pySubscript ner ("error")
        Except.ok (("Error: ") ++ pyStr ev ++ ("\n"))
    .ok (("MEDICAL ENTITIES:\n") ++ dash60 ++ ("\n") ++ body ++ ("\n"))

/-- The `SENTIMENT ANALYSIS` section of the text renderer
(src/pipeline.py:142-152). -/
def renderSentiment (results : List (String × PyVal)) : Except PyErr String :=
  match dictLookup results ("Sentiment_Analysis") with
  | Option.none => .ok ""
  | some senti => do
    let hasErr ← pyContains ("error") senti
    let body ←
      if !hasErr then do
        let os ← pyGetE senti ("Overall_Sentiment") (.str ("N/A"))
        let oi ← pyGetE senti ("Overall_Intent") (.str ("N/A"))
        let sa ← pyGetE senti ("Segments_Analyzed") (.int 0)
        Except.ok (("Overall Sentiment: ") ++ pyStr os ++ ("\n") ++
             ("Overall Intent: ") ++ pyStr oi ++ ("\n") ++
             ("Segments Analyzed: ") ++ pyStr sa ++ ("\n"))
      else do
        let ev ← pySubscript senti ("error")
        Except.ok (("Error: ") ++ pyStr ev ++ ("\n"))
    .ok (("SENTIMENT ANALYSIS:\n") ++ dash60 ++ ("\n") ++ body ++ ("\n"))

/-- The `SOAP NOTE` section of the text renderer (src/pipeline.py:155-162). -/
def renderSOAP (results : List (String × PyVal)) : Except PyErr String :=
  match dictLookup results ("SOAP_Note") with
  | Option.none => .ok ""
  | some soap => do
    let hasErr ← pyContains ("error") soap
    let body ←
      if !hasErr then format_soap_note_text soap
      else do
        let ev ← pySubscript soap ("error")
        Except.ok (("Error: ") ++ pyStr ev ++ ("\n"))
    .ok (("SOAP NOTE:\n") ++ dash60 ++ ("\n") ++ body)

/-- The `format_type="text"` branch of `export_results`
(src/pipeline.py:120-164). -/
def renderText (results : PyVal) : Except PyErr String :=
  match results with
  | .dict kvs => do
    let n ← renderNER kvs
    let s ← renderSentiment kvs
    let p ← renderSOAP kvs
    .ok (eq60 ++ ("\n") ++ ("MEDICAL TRANSCRIPT ANALYSIS RESULTS\n") ++ eq60 ++
         ("\n\n") ++ n ++ s ++ p)
  | v => .error (.typeError (("argument of type ") ++ pyTypeName v ++ (" is not iterable")))

/-- `PhysicianNotetakerPipeline.export_results` (src/pipeline.py:105-167). -/
def export_results (results : PyVal) (format_type : String) : Except PyErr String :=
  if format_type = "json" then .ok (pyJsonDumps results)
  else if format_type = "text" then renderText results
  else .error (.valueError (("Unknown format type: ") ++ format_type))

/-! ## Shape helpers used by the theorem statements -/

/-- Key lookup on a dict value (`Option.none` on non-dicts). -/
def pvLookup (v : PyVal) (k : String) : Option PyVal :=
  match v with
  | .dict kvs => dictLookup kvs k
  | _ => Option.none

/-- Two-level key lookup. -/
def pvLookup2 (v : PyVal) (k1 k2 : String) : Option PyVal :=
  (pvLookup v k1).bind (fun d => pvLookup d k2)

/-- The scalar fields of the entities validator and their defaults. -/
def nerScalarFields : List (String × PyVal) :=
  [("Patient_Name", .none), ("Diagnosis", .none),
   ("Current_Status", .str ("Not specified")), ("Prognosis", .none)]

/-- The `or`-defaulted scalar fields of the summary validator. -/
def summaryScalarFields : List (String × PyVal) :=
  [("Chief_Complaint", .str ("Not specified")),
   ("History_of_Present_Illness", .str ("Not documented")),
   ("Current_Status", .str ("Not specified")),
   ("Medical_Findings", .str ("Not documented")),
   ("Clinical_Notes", .str ("Not documented"))]

/-- The demographic sub-fields of the summary validator. -/
def demoFields : List String := ["Name", "Age", "Gender"]

/-- The (section, leaf) pairs of the SOAP validator. -/
def soapLeaves : List (String × String) :=
  [("Subjective", "Chief_Complaint"), ("Subjective", "History_of_Present_Illness"),
   ("Objective", "Physical_Exam"), ("Objective", "Observations"),
   ("Assessment", "Diagnosis"), ("Assessment", "Severity"),
   ("Plan", "Treatment"), ("Plan", "Follow-Up")]

/-- The example transcript of the specification (section 8). -/
def c4transcript : String :=
  "Physician: How are you?\nPatient: My neck still hurts.\nPhysician: Since when?\nPatient: Since the accident three weeks ago."

/-- A `{"error": ...}` record. -/
def isErrorRecord (v : PyVal) : Bool := (pvLookup v ("error")).isSome

def isErr (o : Except PyErr PyVal) : Bool :=
  match o with
  | .error _ => true
  | .ok _ => false

def errCount (os : List (Except PyErr PyVal)) : Nat := (os.filter isErr).length

/-- A value `", ".join` accepts: a Python list of strings. -/
def joinable (v : PyVal) : Prop := ∃ ss : List String, v = .list (ss.map .str)

/-- Shape of a section the `MEDICAL ENTITIES` text renderer can print: a
dict that either is an error record or has joinable `Symptoms` and
`Treatment` values — every value the entities task can deliver has this
shape. -/
def sectionSafe (v : PyVal) : Prop :=
  ∃ kvs, v = .dict kvs ∧
    ((dictLookup kvs ("error")).isSome = true ∨
     (joinable (pyGetD kvs ("Symptoms") (.list [])) ∧
      joinable (pyGetD kvs ("Treatment") (.list []))))

/-- The backoff schedule: `k` sleeps of `d * 1, d * 2, ..., d * k`. -/
def delaySched (d : ℚ) (k : Nat) : List ℚ :=
  (List.range k).map (fun j => d * ((j + 1 : Nat) : ℚ))

/-- The tail of the backoff schedule from attempt `start`: `k` sleeps of
`d * (start + 1), ..., d * (start + k)`. -/
def delayFrom (d : ℚ) (start k : Nat) : List ℚ :=
  (List.range k).map (fun j => d * ((start + j + 1 : Nat) : ℚ))

/-! Fuel accounting for the round-trip proof: `pbound v` bounds the
`parseVal`/`parseArrItems`/`parseObjItems` recursion depth needed to parse
the serialization of `v` (string bodies carry their own local fuel). -/

mutual
def pbound : PyVal → Nat
  | .none => 1
  | .bool _ => 1
  | .int _ => 1
  | .str _ => 1
  | .list [] => 1
  | .list (x :: xs) => 1 + pboundL (x :: xs)
  | .dict [] => 1
  | .dict (kv :: kvs) => 1 + pboundD (kv :: kvs)

def pboundL : List PyVal → Nat
  | [] => 1
  | x :: xs => 1 + pbound x + pboundL xs

def pboundD : List (String × PyVal) → Nat
  | [] => 1
  | (_, v) :: kvs => 1 + pbound v + pboundD kvs
end

/-- A continuation a serialized number may be followed by: empty, or a
non-digit character (so the digit scan stops exactly at the boundary). -/
def restOk : List Char → Prop
  | [] => True
  | c :: _ => isDigitCh c = false

/-! # Theorems -/

theorem pyStr_str (s : String) : pyStr (.str s) = s := by
  simp [pyStr]

theorem ensure_list_map_str (xs : List String) :
    ensure_list (.list (xs.map .str)) = (xs.filter (fun s => s ≠ "")).map pyStrip := by
  induction xs with
  | nil => rfl
  | cons x xs ih =>
    by_cases hx : x = ""
    · subst hx
      simpa [ensure_list, pyTruthy] using ih
    · simp only [ensure_list, List.map_cons, List.filter_cons] at ih ⊢
      simp [pyTruthy, hx, pyStr_str, ih]

/-- C7 (corrected).  `_ensure_list` normalization: an already-canonical
list (non-empty, trimmed strings) is returned unchanged; a single string
becomes `[value.strip()]` when the stripped value is non-empty and `[]`
otherwise (so an untrimmed or whitespace-only string is NOT returned
as-is, which corrects the claim); `None` and the non-list, non-string
values become `[]`; a trimmed list keeps exactly its non-empty elements,
in order. -/
theorem ensure_list_normalization :
    (∀ xs : List String, (∀ s ∈ xs, s ≠ "" ∧ pyStrip s = s) →
        ensure_list (.list (xs.map .str)) = xs)
    ∧ (∀ s : String, ensure_list (.str s) = if pyStrip s = "" then [] else [pyStrip s])
    ∧ (ensure_list .none = [] ∧ (∀ b, ensure_list (.bool b) = []) ∧
       (∀ n : Int, ensure_list (.int n) = []) ∧ (∀ kvs, ensure_list (.dict kvs) = []))
    ∧ (∀ xs : List String, (∀ s ∈ xs, pyStrip s = s) →
        ensure_list (.list (xs.map .str)) = xs.filter (fun s => s ≠ "")) := by
  have part4 : ∀ xs : List String, (∀ s ∈ xs, pyStrip s = s) →
      ensure_list (.list (xs.map .str)) = xs.filter (fun s => s ≠ "") := by
    intro xs h
    rw [ensure_list_map_str]
    apply List.map_congr_left ?_ |>.trans (List.map_id _)
    intro s hs
    exact h s (List.mem_of_mem_filter hs)
  refine ⟨?_, ?_, ⟨rfl, fun _ => rfl, fun _ => rfl, fun _ => rfl⟩, part4⟩
  · intro xs h
    rw [part4 xs (fun s hs => (h s hs).2)]
    exact List.filter_eq_self.mpr (fun s hs => by simpa using (h s hs).1)
  · intro s
    rfl

/-- C7 counterexample: the claim says a single non-empty string comes back
as the one-element list containing that string; the code strips it, so
`" a "` yields `["a"]`, not `[" a "]`. -/
theorem ensure_list_untrimmed_string_cex :
    ensure_list (.str (" a ")) = ["a"] ∧ (["a"] : List String) ≠ ([" a "]) := by
  exact ⟨rfl, by decide⟩

/-- Witness for `ensure_list_normalization` at a concrete input. -/
theorem ensure_list_normalization_witness :
    ensure_list (.list ((["a", "", "b"]).map PyVal.str)) =
      (["a", "", "b"]).filter (fun s => s ≠ "") := by
  exact ensure_list_normalization.2.2.2 (["a", "", "b"]) (by decide)

theorem soapLeaf_present (r : List (String × PyVal)) (sec leaf : String)
    (m : List (String × PyVal)) (v : PyVal) (hm : pyGet r sec = .dict m)
    (hv : dictLookup m leaf = some v) : soapLeaf r sec leaf = v := by
  simp [soapLeaf, hm, pyGetD, hv]

theorem soapLeaf_default (r : List (String × PyVal)) (sec leaf : String)
    (hnone : ∀ m, pyGet r sec = .dict m → dictLookup m leaf = Option.none) :
    soapLeaf r sec leaf = .str ("Not documented") := by
  rcases hd : pyGet r sec with _ | _ | _ | _ | _ | mm
  case dict => simp [soapLeaf, hd, pyGetD, hnone mm hd]
  all_goals simp [soapLeaf, hd]

theorem soapValidate_leaf (r : List (String × PyVal)) (sec leaf : String)
    (hmem : (sec, leaf) ∈ soapLeaves) :
    pvLookup2 (soapValidate r) sec leaf = some (soapLeaf r sec leaf) := by
  simp only [soapLeaves, List.mem_cons, List.not_mem_nil, Prod.mk.injEq, or_false] at hmem
  rcases hmem with hp | hp | hp | hp | hp | hp | hp | hp <;>
    obtain ⟨rfl, rfl⟩ := hp <;> rfl

theorem demoVal_present (r : List (String × PyVal)) (k : String)
    (m : List (String × PyVal)) (v : PyVal)
    (hm : pyGet r ("Patient_Demographics") = .dict m) (hv : dictLookup m k = some v) :
    (if (pyGet r ("Patient_Demographics")).isDict
     then subGet r ("Patient_Demographics") k else .none) = v := by
  have hv' : pyGet m k = v := by simp [pyGet, hv]
  simp [subGet, hm, hv', PyVal.isDict]

theorem demoVal_default (r : List (String × PyVal)) (k : String)
    (hnone : ∀ m, pyGet r ("Patient_Demographics") = .dict m →
      dictLookup m k = Option.none) :
    (if (pyGet r ("Patient_Demographics")).isDict
     then subGet r ("Patient_Demographics") k else .none) = PyVal.none := by
  rcases hd : pyGet r ("Patient_Demographics") with _ | _ | _ | _ | _ | mm
  case dict =>
    have hv' : pyGet mm k = PyVal.none := by simp [pyGet, hnone mm hd]
    simp [subGet, hd, hv', PyVal.isDict]
  all_goals simp [hd, PyVal.isDict]

theorem summaryValidate_demo (r : List (String × PyVal)) (k : String)
    (hmem : k ∈ demoFields) :
    pvLookup2 (summaryValidate r) ("Patient_Demographics") k =
      some (if (pyGet r ("Patient_Demographics")).isDict
            then subGet r ("Patient_Demographics") k else .none) := by
  simp only [demoFields, List.mem_cons, List.not_mem_nil, or_false] at hmem
  rcases hmem with rfl | rfl | rfl <;> rfl

theorem summaryValidate_timeline (r : List (String × PyVal)) :
    pvLookup2 (summaryValidate r) ("Symptoms") ("Timeline") =
      some (if (pyGet r ("Symptoms")).isDict
            then subGet r ("Symptoms") ("Timeline") else .str ("Not specified")) := rfl

/-- C5 (corrected).  The scalar-field policy the three validators actually
implement.  Entities and summary validators: a TRUTHY source value is kept
unchanged — no trimming, so a whitespace-only string survives — and the
declared default is substituted exactly when the value is falsy (absent,
null, empty string, `0`, `False`).  SOAP leaves and the summary
demographic sub-fields: any PRESENT value is kept, even null or the empty
string, and the default applies only when the key is missing or the
enclosing section is not a dict.  The summary `Timeline` sub-field
defaults to null (not a placeholder) whenever its section is a dict
without the key, and to `"Not specified"` otherwise. -/
theorem validator_scalar_field_policy :
    (∀ r k dflt v, (k, dflt) ∈ nerScalarFields → dictLookup r k = some v →
        pyTruthy v = true → pvLookup (nerValidate r) k = some v)
    ∧ (∀ r k dflt, (k, dflt) ∈ nerScalarFields → pyTruthy (pyGet r k) = false →
        pvLookup (nerValidate r) k = some dflt)
    ∧ (∀ r k dflt v, (k, dflt) ∈ summaryScalarFields → dictLookup r k = some v →
        pyTruthy v = true → pvLookup (summaryValidate r) k = some v)
    ∧ (∀ r k dflt, (k, dflt) ∈ summaryScalarFields → pyTruthy (pyGet r k) = false →
        pvLookup (summaryValidate r) k = some dflt)
    ∧ (∀ r sec leaf m v, (sec, leaf) ∈ soapLeaves → pyGet r sec = .dict m →
        dictLookup m leaf = some v → pvLookup2 (soapValidate r) sec leaf = some v)
    ∧ (∀ r sec leaf, (sec, leaf) ∈ soapLeaves →
        (∀ m, pyGet r sec = .dict m → dictLookup m leaf = Option.none) →
        pvLookup2 (soapValidate r) sec leaf = some (.str ("Not documented")))
    ∧ (∀ r k m v, k ∈ demoFields → pyGet r ("Patient_Demographics") = .dict m →
        dictLookup m k = some v →
        pvLookup2 (summaryValidate r) ("Patient_Demographics") k = some v)
    ∧ (∀ r k, k ∈ demoFields →
        (∀ m, pyGet r ("Patient_Demographics") = .dict m → dictLookup m k = Option.none) →
        pvLookup2 (summaryValidate r) ("Patient_Demographics") k = some PyVal.none)
    ∧ (∀ r m, pyGet r ("Symptoms") = .dict m →
        pvLookup2 (summaryValidate r) ("Symptoms") ("Timeline") = some (pyGet m ("Timeline")))
    ∧ (∀ r, (pyGet r ("Symptoms")).isDict = false →
        pvLookup2 (summaryValidate r) ("Symptoms") ("Timeline") =
          some (.str ("Not specified"))) := by
  refine ⟨?_, ?_, ?_, ?_, ?_, ?_, ?_, ?_, ?_, ?_⟩
  · intro r k dflt v hmem hv htr
    simp only [nerScalarFields, List.mem_cons, List.mem_singleton, Prod.mk.injEq,
      List.not_mem_nil, or_false] at hmem
    rcases hmem with ⟨rfl, rfl⟩ | ⟨rfl, rfl⟩ | ⟨rfl, rfl⟩ | ⟨rfl, rfl⟩ <;>
      simp [nerValidate, pvLookup, dictLookup, pyOr, pyGet, hv, htr]
  · intro r k dflt hmem hfa
    simp only [nerScalarFields, List.mem_cons, List.mem_singleton, Prod.mk.injEq,
      List.not_mem_nil, or_false] at hmem
    rcases hmem with ⟨rfl, rfl⟩ | ⟨rfl, rfl⟩ | ⟨rfl, rfl⟩ | ⟨rfl, rfl⟩ <;>
      simp [nerValidate, pvLookup, dictLookup, pyOr, hfa]
  · intro r k dflt v hmem hv htr
    simp only [summaryScalarFields, List.mem_cons, List.mem_singleton, Prod.mk.injEq,
      List.not_mem_nil, or_false] at hmem
    rcases hmem with ⟨rfl, rfl⟩ | ⟨rfl, rfl⟩ | ⟨rfl, rfl⟩ | ⟨rfl, rfl⟩ | ⟨rfl, rfl⟩ <;>
      simp [summaryValidate, pvLookup, dictLookup, pyOr, pyGet, hv, htr]
  · intro r k dflt hmem hfa
    simp only [summaryScalarFields, List.mem_cons, List.mem_singleton, Prod.mk.injEq,
      List.not_mem_nil, or_false] at hmem
    rcases hmem with ⟨rfl, rfl⟩ | ⟨rfl, rfl⟩ | ⟨rfl, rfl⟩ | ⟨rfl, rfl⟩ | ⟨rfl, rfl⟩ <;>
      simp [summaryValidate, pvLookup, dictLookup, pyOr, hfa]
  · intro r sec leaf m v hmem hm hv
    rw [soapValidate_leaf r sec leaf hmem, soapLeaf_present r sec leaf m v hm hv]
  · intro r sec leaf hmem hnone
    rw [soapValidate_leaf r sec leaf hmem, soapLeaf_default r sec leaf hnone]
  · intro r k m v hmem hm hv
    rw [summaryValidate_demo r k hmem, demoVal_present r k m v hm hv]
  · intro r k hmem hnone
    rw [summaryValidate_demo r k hmem, demoVal_default r k hnone]
  · intro r m hm
    rw [summaryValidate_timeline r]
    simp [hm, PyVal.isDict, subGet]
  · intro r hnd
    rw [summaryValidate_timeline r]
    simp [hnd]

/-- C5 counterexample: with raw reply `{"Current_Status": " "}` the claim
requires the default `"Not specified"` (the source value is empty after
trimming), but the entities validator keeps the whitespace-only string. -/
theorem validator_whitespace_not_defaulted_cex :
    pvLookup (nerValidate [("Current_Status", PyVal.str (" "))]) ("Current_Status") =
      some (PyVal.str (" ")) ∧
    PyVal.str (" ") ≠ PyVal.str ("Not specified") := by
  refine ⟨rfl, fun h => ?_⟩
  injection h with h'
  exact absurd h' (by decide)

/-- Witness for `validator_scalar_field_policy` at a concrete input. -/
theorem validator_scalar_field_policy_witness :
    pvLookup (nerValidate [("Current_Status", PyVal.str (" x "))]) ("Current_Status") =
      some (PyVal.str (" x ")) := by
  exact validator_scalar_field_policy.1 [("Current_Status", PyVal.str (" x "))]
    ("Current_Status") (.str ("Not specified")) (.str (" x "))
    (by simp [nerScalarFields]) rfl rfl

theorem resolveSentiment_str (s : String) :
    ∃ t, resolveSentiment (.str s) = .ok (.str t) ∧ t ∈ validSentiments := by
  by_cases h0 : pyInStrList (.str s) validSentiments
  · exact ⟨s, by simp [resolveSentiment, h0], by simpa [pyInStrList] using h0⟩
  · simp only [resolveSentiment, h0, if_false, pyLowerE]
    by_cases h1 : (strContains (pyLower s) ("anxious") || strContains (pyLower s) ("worried")
        || strContains (pyLower s) ("concerned")) = true
    · exact ⟨"Anxious", by simp [h1], by decide⟩
    · by_cases h2 : (strContains (pyLower s) ("reassured") || strContains (pyLower s) ("relieved")
          || strContains (pyLower s) ("better")) = true
      · exact ⟨"Reassured", by simp [h1, h2], by decide⟩
      · exact ⟨"Neutral", by simp [h1, h2], by decide⟩

theorem resolveIntent_str (s : String) :
    ∃ t, resolveIntent (.str s) = .ok (.str t) ∧ t ∈ validIntents := by
  by_cases h0 : pyInStrList (.str s) validIntents
  · exact ⟨s, by simp [resolveIntent, h0], by simpa [pyInStrList] using h0⟩
  · simp only [resolveIntent, h0, if_false, pyLowerE]
    by_cases h1 : strContains (pyLower s) ("reassurance") = true
    · exact ⟨"Seeking reassurance", by simp [h1], by decide⟩
    · by_cases h2 : (strContains (pyLower s) ("symptom")
          || strContains (pyLower s) ("reporting")) = true
      · exact ⟨"Reporting symptoms", by simp [h1, h2], by decide⟩
      · by_cases h3 : (strContains (pyLower s) ("concern")
            || strContains (pyLower s) ("worried")) = true
        · exact ⟨"Expressing concern", by simp [h1, h2, h3], by decide⟩
        · exact ⟨"Other", by simp [h1, h2, h3], by decide⟩

/-- C2 (corrected, string labels).  When the raw reply's `"Sentiment"` and
`"Intent"` values — if present — are strings (of any content, keys may
also be absent), `_validate_sentiment_result` returns a record whose
sentiment is one of the three enumerated values and whose intent is one
of the four. -/
theorem validate_sentiment_enumerated_for_strings
    (r : List (String × PyVal))
    (hS : ∀ v, dictLookup r ("Sentiment") = some v → ∃ s, v = PyVal.str s)
    (hI : ∀ v, dictLookup r ("Intent") = some v → ∃ s, v = PyVal.str s) :
    ∃ p : String × String,
      sentimentValidate r = .ok (.dict [("Sentiment", .str p.1), ("Intent", .str p.2)]) ∧
      p.1 ∈ validSentiments ∧ p.2 ∈ validIntents := by
  have hSs : ∃ s0, pyGetD r ("Sentiment") (.str ("Neutral")) = .str s0 := by
    rcases hl : dictLookup r ("Sentiment") with _ | v
    · exact ⟨"Neutral", by simp [pyGetD, hl]⟩
    · rcases hS v hl with ⟨s, rfl⟩
      exact ⟨s, by simp [pyGetD, hl]⟩
  have hIs : ∃ i0, pyGetD r ("Intent") (.str ("Other")) = .str i0 := by
    rcases hl : dictLookup r ("Intent") with _ | v
    · exact ⟨"Other", by simp [pyGetD, hl]⟩
    · rcases hI v hl with ⟨s, rfl⟩
      exact ⟨s, by simp [pyGetD, hl]⟩
  rcases hSs with ⟨s0, hs0⟩
  rcases hIs with ⟨i0, hi0⟩
  rcases resolveSentiment_str s0 with ⟨t, ht, htmem⟩
  rcases resolveIntent_str i0 with ⟨u, hu, humem⟩
  exact ⟨(t, u), by simp [sentimentValidate, hs0, hi0, ht, hu], htmem, humem⟩

/-- C2 counterexample: the claim quantifies over ANY values under the
`"Sentiment"`/`"Intent"` keys, but a non-string value (here JSON `null`)
makes `_validate_sentiment_result` raise `AttributeError` at
`sentiment.lower()` instead of returning an enumerated result. -/
theorem validate_sentiment_nonstring_raises :
    sentimentValidate [("Sentiment", PyVal.none)] =
      .error (.attributeError ("NoneType") ("lower")) := rfl

/-- Witness for `validate_sentiment_enumerated_for_strings` at a concrete
input. -/
theorem validate_sentiment_enumerated_for_strings_witness :
    ∃ p : String × String,
      sentimentValidate [("Sentiment", PyVal.str ("somewhat worried"))] =
        .ok (.dict [("Sentiment", .str p.1), ("Intent", .str p.2)]) ∧
      p.1 ∈ validSentiments ∧ p.2 ∈ validIntents := by
  apply validate_sentiment_enumerated_for_strings
  · intro v hv
    simp [dictLookup] at hv
    subst hv
    exact ⟨"somewhat worried", rfl⟩
  · intro v hv
    simp [dictLookup] at hv

theorem delayFrom_zero (d : ℚ) (k : Nat) : delayFrom d 0 k = delaySched d k := by
  simp [delayFrom, delaySched]

theorem delayFrom_succ (d : ℚ) (start k : Nat) :
    delayFrom d start (k + 1) =
      d * ((start + 1 : Nat) : ℚ) :: delayFrom d (start + 1) k := by
  unfold delayFrom
  rw [List.range_succ_eq_map, List.map_cons, List.map_map]
  refine (List.cons_eq_cons).mpr ⟨by norm_num, ?_⟩
  congr 1
  funext j
  have harith : start + (j + 1) + 1 = start + 1 + j + 1 := by omega
  simp [Function.comp, harith]

theorem gtGo_all_fail (gen : Nat → Except String String) (e : Nat → String)
    (mr : Nat) (d : ℚ) :
    ∀ fuel attempt, attempt + fuel = mr → 1 ≤ fuel →
      (∀ i, attempt ≤ i → i < mr → gen i = .error (e i)) →
      gtGo gen mr d attempt fuel =
        (.exn (("Failed to generate text after ") ++ toString mr ++
               (" attempts: ") ++ e (mr - 1)),
         delayFrom d attempt (fuel - 1)) := by
  intro fuel
  induction fuel with
  | zero => intro attempt _ h1 _; omega
  | succ f ih =>
    intro attempt hsum _ hfail
    have hgen : gen attempt = .error (e attempt) := hfail attempt le_rfl (by omega)
    by_cases hlast : attempt < mr - 1
    · have hf : 1 ≤ f := by omega
      rw [show f + 1 - 1 = (f - 1) + 1 by omega, delayFrom_succ]
      simp only [gtGo, hgen, hlast, if_true]
      rw [ih (attempt + 1) (by omega) hf (fun i h1 h2 => hfail i (by omega) h2)]
    · have hattempt : attempt = mr - 1 := by omega
      have hf0 : f = 0 := by omega
      subst hf0
      subst hattempt
      simp [gtGo, hgen, hlast, delayFrom]

theorem gtGo_first_success (gen : Nat → Except String String)
    (mr : Nat) (d : ℚ) (t : String) :
    ∀ fuel attempt k, attempt + fuel = mr → attempt ≤ k → k < mr →
      (∀ j, attempt ≤ j → j < k → ∃ m, gen j = .error m) → gen k = .ok t →
      gtGo gen mr d attempt fuel = (.ret (some t), delayFrom d attempt (k - attempt)) := by
  intro fuel
  induction fuel with
  | zero => intro attempt k hsum h1 h2 _ _; omega
  | succ f ih =>
    intro attempt k hsum hak hk hfail hok
    rcases Nat.eq_or_lt_of_le hak with rfl | hlt
    · simp [gtGo, hok, delayFrom]
    · obtain ⟨m, hm⟩ := hfail attempt le_rfl hlt
      have hlast : attempt < mr - 1 := by omega
      rw [show k - attempt = (k - (attempt + 1)) + 1 by omega, delayFrom_succ]
      simp only [gtGo, hm, hlast, if_true]
      rw [ih (attempt + 1) k (by omega) (by omega) hk
        (fun j hj1 hj2 => hfail j (by omega) hj2) hok]

/-- C6 (corrected).  `generate_text` makes up to `max_retries` underlying
attempts (provided `max_retries ≥ 1`, the correction: with `max_retries =
0` the loop body never runs and the function returns Python's implicit
`None` instead of raising); between consecutive attempts it sleeps
`retry_delay * attempt_number`; when every attempt fails it raises, only
after the last attempt, a failure whose message carries the attempt count
and the last underlying error; and when some attempt succeeds it returns
that attempt's text, never raising before the retries are exhausted. -/
theorem generate_text_retry_exhaustion
    (gen : Nat → Except String String) (e : Nat → String) (mr : Nat) (d : ℚ)
    (hmr : 1 ≤ mr) :
    ((∀ i, i < mr → gen i = .error (e i)) →
      generate_text gen mr d =
        (.exn (("Failed to generate text after ") ++ toString mr ++
               (" attempts: ") ++ e (mr - 1)),
         delaySched d (mr - 1)))
    ∧ (∀ k t, k < mr → (∀ j, j < k → ∃ m, gen j = .error m) → gen k = .ok t →
        generate_text gen mr d = (.ret (some t), delaySched d k)) := by
  constructor
  · intro hfail
    rw [generate_text, gtGo_all_fail gen e mr d mr 0 (by omega) hmr
      (fun i _ h2 => hfail i h2), delayFrom_zero]
  · intro k t hk hfail hok
    rw [generate_text, gtGo_first_success gen mr d t mr 0 k (by omega) (by omega) hk
      (fun j _ hj2 => hfail j hj2) hok]
    simp [delayFrom_zero]

/-- C6 counterexample: the claim covers every `max_retries`, but with
`max_retries = 0` the attempt loop never runs, so `generate_text` returns
Python's implicit `None` instead of raising the claimed failure. -/
theorem generate_text_zero_retries_returns_none :
    generate_text (fun _ => .error ("boom")) 0 1 = (.ret Option.none, []) ∧
    (.ret Option.none : PyResult String) ≠
      .exn (("Failed to generate text after ") ++ toString (0 : Nat) ++
            (" attempts: ") ++ "boom") :=
  ⟨rfl, fun h => PyResult.noConfusion h⟩

/-- Witness for `generate_text_retry_exhaustion` at a concrete input. -/
theorem generate_text_retry_exhaustion_witness :
    generate_text (fun _ => .error ("svc down")) 3 1 =
      (.exn (("Failed to generate text after ") ++ toString (3 : Nat) ++
             (" attempts: ") ++ "svc down"),
       delaySched 1 2) := by
  exact (generate_text_retry_exhaustion (fun _ => .error ("svc down"))
    (fun _ => "svc down") 3 1 (by omega)).1 (fun i _ => rfl)

theorem generate_text_single_err (m : String) :
    generate_text (fun _ => Except.error m) 1 1 =
      (.exn (("Failed to generate text after 1 attempts: ") ++ m), []) := rfl

theorem generate_text_single_ok (t : String) :
    generate_text (fun _ => Except.ok t) 1 1 = (.ret (some t), []) := rfl

theorem gjGo_all_fail (gen : Nat → Except String String) (e : Nat → String)
    (mr : Nat) (d : ℚ) :
    ∀ fuel attempt, attempt + fuel = mr → 1 ≤ fuel →
      (∀ i, attempt ≤ i → i < mr → gen i = .error (e i)) →
      gjGo gen mr d attempt fuel =
        (.exn (("Failed to generate text after 1 attempts: ") ++ e (mr - 1)),
         delayFrom d attempt (fuel - 1)) := by
  intro fuel
  induction fuel with
  | zero => intro attempt _ h1 _; omega
  | succ f ih =>
    intro attempt hsum _ hfail
    have hgen : gen attempt = .error (e attempt) := hfail attempt le_rfl (by omega)
    by_cases hlast : attempt < mr - 1
    · have hf : 1 ≤ f := by omega
      rw [show f + 1 - 1 = (f - 1) + 1 by omega, delayFrom_succ]
      simp only [gjGo, hgen, generate_text_single_err, hlast, if_true]
      rw [ih (attempt + 1) (by omega) hf (fun i h1 h2 => hfail i (by omega) h2)]
    · have hattempt : attempt = mr - 1 := by omega
      have hf0 : f = 0 := by omega
      subst hf0
      subst hattempt
      simp [gjGo, hgen, generate_text_single_err, hlast, delayFrom]

theorem gjGo_first_success (gen : Nat → Except String String)
    (mr : Nat) (d : ℚ) (t : String) (v : PyVal) :
    ∀ fuel attempt k, attempt + fuel = mr → attempt ≤ k → k < mr →
      (∀ j, attempt ≤ j → j < k → ∃ m, gen j = .error m) → gen k = .ok t →
      pyJsonLoads (stripFences t) = some v →
      gjGo gen mr d attempt fuel = (.ret (some v), delayFrom d attempt (k - attempt)) := by
  intro fuel
  induction fuel with
  | zero => intro attempt k hsum h1 h2 _ _ _; omega
  | succ f ih =>
    intro attempt k hsum hak hk hfail hok hparse
    rcases Nat.eq_or_lt_of_le hak with rfl | hlt
    · simp [gjGo, hok, generate_text_single_ok, hparse, delayFrom]
    · obtain ⟨m, hm⟩ := hfail attempt le_rfl hlt
      have hlast : attempt < mr - 1 := by omega
      rw [show k - attempt = (k - (attempt + 1)) + 1 by omega, delayFrom_succ]
      simp only [gjGo, hm, generate_text_single_err, hlast, if_true]
      rw [ih (attempt + 1) k (by omega) (by omega) hk
        (fun j hj1 hj2 => hfail j (by omega) hj2) hok hparse]

/-- C3 (corrected).  In `generate_json`, a non-parse failure from the
inner `generate_text` call (invoked with `max_retries=1`, so one
underlying attempt per outer attempt) does NOT propagate immediately:
like a parse failure, it is retried by `generate_json`'s own loop with the
same backoff, and only on the last outer attempt is it re-raised
unchanged.  When every underlying call fails, the re-raised failure is the
inner one of the last attempt after `max_retries - 1` sleeps; when an
earlier attempt's reply parses after `k` failed attempts, the parsed value
is returned after `k` sleeps. -/
theorem generate_json_retry_behavior
    (gen : Nat → Except String String) (e : Nat → String) (mr : Nat) (d : ℚ)
    (hmr : 1 ≤ mr) :
    ((∀ i, i < mr → gen i = .error (e i)) →
      generate_json gen mr d =
        (.exn (("Failed to generate text after 1 attempts: ") ++ e (mr - 1)),
         delaySched d (mr - 1)))
    ∧ (∀ k t v, k < mr → (∀ j, j < k → ∃ m, gen j = .error m) → gen k = .ok t →
        pyJsonLoads (stripFences t) = some v →
        generate_json gen mr d = (.ret (some v), delaySched d k)) := by
  constructor
  · intro hfail
    rw [generate_json, gjGo_all_fail gen e mr d mr 0 (by omega) hmr
      (fun i _ h2 => hfail i h2), delayFrom_zero]
  · intro k t v hk hfail hok hparse
    rw [generate_json, gjGo_first_success gen mr d t v mr 0 k (by omega) (by omega) hk
      (fun j _ hj2 => hfail j hj2) hok hparse]
    simp [delayFrom_zero]

/-- C3 counterexample: the first inner call fails with a non-parse failure
(`"boom"`), yet `generate_json` does not propagate it — it retries, and
the second attempt's reply `{}` parses, so the call succeeds. -/
theorem generate_json_retries_nonparse_cex :
    (fun i => if i = 0 then Except.error ("boom")
              else Except.ok ("\x7b\x7d") : Nat → Except String String) 0 =
      .error ("boom") ∧
    generate_json (fun i => if i = 0 then .error ("boom") else .ok ("\x7b\x7d")) 3 1 =
      (.ret (some (.dict [])), [1]) ∧
    (.ret (some (PyVal.dict [])) : PyResult PyVal) ≠
      .exn (("Failed to generate text after 1 attempts: ") ++ "boom") := by
  refine ⟨rfl, ?_, fun h => PyResult.noConfusion h⟩
  have hcomp : generate_json (fun i => if i = 0 then .error ("boom") else .ok ("\x7b\x7d")) 3 1 =
      (.ret (some (.dict [])), [1 * ((0 + 1 : Nat) : ℚ)]) := rfl
  rw [hcomp]
  norm_num

/-- Witness for `generate_json_retry_behavior` at a concrete input. -/
theorem generate_json_retry_behavior_witness :
    generate_json (fun _ => .error ("svc down")) 2 1 =
      (.exn (("Failed to generate text after 1 attempts: ") ++ "svc down"),
       delaySched 1 1) := by
  exact (generate_json_retry_behavior (fun _ => .error ("svc down"))
    (fun _ => "svc down") 2 1 (by omega)).1 (fun i _ => rfl)

theorem aftLoop_all_short (analyze : String → Except PyErr (String × String)) :
    ∀ segs details sents ints log, (∀ s ∈ segs, s.length ≤ 10) →
      aftLoop analyze segs details sents ints log =
        (.ok (mkSentReport (if sents.isEmpty then "Neutral" else pyModeMax sents)
                           (if ints.isEmpty then "Other" else pyModeMax ints)
                           details.length details), log) := by
  intro segs
  induction segs with
  | nil => intro details sents ints log _; rfl
  | cons s ss ih =>
    intro details sents ints log hshort
    have hs : ¬ (s.length > 10) := by
      have := hshort s (List.mem_cons_self s ss)
      omega
    simp only [aftLoop, if_neg hs]
    exact ih details sents ints log (fun x hx => hshort x (List.mem_cons_of_mem s hx))

/-- C10 (confirmed).  When `extract_patient_segments` yields a non-empty
list whose segments all have length at most 10, `analyze_full_transcript`
performs no sentiment classification at all (the call log is empty, so the
first-lines fallback window is in particular never analyzed) and returns
`Neutral` / `Other` with `Segments_Analyzed = 0` and empty details. -/
theorem analyze_full_transcript_short_segments
    (analyze : String → Except PyErr (String × String)) (transcript : String)
    (hne : extract_patient_segments transcript ≠ [])
    (hshort : ∀ s ∈ extract_patient_segments transcript, s.length ≤ 10) :
    analyze_full_transcript analyze transcript =
      (.ok (.dict [("Overall_Sentiment", .str ("Neutral")),
                   ("Overall_Intent", .str ("Other")),
                   ("Segments_Analyzed", .int 0),
                   ("Segment_Details", .list [])]), []) := by
  have hne' : (extract_patient_segments transcript).isEmpty = false := by
    simpa [List.isEmpty_iff] using hne
  simp only [analyze_full_transcript, hne', Bool.false_eq_true, if_false]
  rw [aftLoop_all_short analyze (extract_patient_segments transcript) [] [] [] [] hshort]
  rfl

set_option maxRecDepth 100000 in
/-- Witness for `analyze_full_transcript_short_segments` at a concrete
input: `"Patient: hi"` segments to `["hi"]`. -/
theorem analyze_full_transcript_short_segments_witness :
    analyze_full_transcript (fun _ => .ok (("Neutral"), ("Other"))) ("Patient: hi") =
      (.ok (.dict [("Overall_Sentiment", .str ("Neutral")),
                   ("Overall_Intent", .str ("Other")),
                   ("Segments_Analyzed", .int 0),
                   ("Segment_Details", .list [])]), []) := by
  exact analyze_full_transcript_short_segments (fun _ => .ok (("Neutral"), ("Other")))
    ("Patient: hi") (by decide) (by decide)

set_option maxRecDepth 1000000 in
/-- C4 (code_bug): evaluation of `extract_patient_segments` at the
specification's example transcript.  The greedy first pattern
`Patient[:\s]+["\']?([^"]+)["\']?` captures everything up to the end of
the transcript (the input contains no `"` character), so the code merges
the physician lines into the first returned segment and then the second
pattern re-captures the first utterance — it does not return the claimed
`["My neck still hurts.", "Since the accident three weeks ago."]`. -/
theorem extract_patient_segments_example_actual :
    extract_patient_segments c4transcript =
      ["My neck still hurts.\nPhysician: Since when?\nPatient: Since the accident three weeks ago.",
       "My neck still hurts."] ∧
    (["My neck still hurts.\nPhysician: Since when?\nPatient: Since the accident three weeks ago.",
      "My neck still hurts."] : List String) ≠
      ["My neck still hurts.", "Since the accident three weeks ago."] := by
  exact ⟨by decide, by decide⟩

/-- C1 (confirmed).  With exactly one of the four analysis operations
failing (and, as the validators guarantee, no successful result carrying
an `"error"` key), `process_transcript(transcript, include_soap=True)`
runs all four operations, returns a report whose failing section is
exactly the `{"error": str(e)}` record of that failure while the other
three sections hold their operations' results unchanged, and — being a
total function into reports — lets no exception escape. -/
theorem process_transcript_isolates_failures
    (o1 o2 o3 o4 : Except PyErr PyVal)
    (hone : errCount [o1, o2, o3, o4] = 1)
    (hok : ∀ v, Except.ok v ∈ [o1, o2, o3, o4] → isErrorRecord v = false) :
    (process_transcript o1 o2 o3 o4 true).2 =
      ["Medical_NER", "Summarization", "Sentiment_Analysis", "SOAP_Note"] ∧
    (process_transcript o1 o2 o3 o4 true).1 =
      .dict [("Medical_NER", opResult o1), ("Summarization", opResult o2),
             ("Sentiment_Analysis", opResult o3), ("SOAP_Note", opResult o4)] ∧
    ([o1, o2, o3, o4].filter (fun o => isErrorRecord (opResult o))).length = 1 ∧
    (∀ o v, o ∈ [o1, o2, o3, o4] → o = .ok v → opResult o = v) ∧
    (∀ o er, o ∈ [o1, o2, o3, o4] → o = .error er →
       opResult o = .dict [("error", .str (errStr er))]) := by
  refine ⟨rfl, rfl, ?_, ?_, ?_⟩
  · have hagree : ∀ o ∈ [o1, o2, o3, o4],
        (fun o => isErrorRecord (opResult o)) o = isErr o := by
      intro o hm
      rcases o with er | v
      · rfl
      · simp [opResult, isErr, hok v hm]
    rw [List.filter_congr hagree]
    exact hone
  · intro o v _ hov
    subst hov
    rfl
  · intro o er _ hov
    subst hov
    rfl

/-- Witness for `process_transcript_isolates_failures` at a concrete
input. -/
theorem process_transcript_isolates_failures_witness :
    (process_transcript (.error (.exception ("rate limited"))) (.ok (.dict [("x", .int 1)]))
        (.ok (.dict [])) (.ok (.dict [("y", .str ("z"))])) true).2 =
      ["Medical_NER", "Summarization", "Sentiment_Analysis", "SOAP_Note"] ∧
    (process_transcript (.error (.exception ("rate limited"))) (.ok (.dict [("x", .int 1)]))
        (.ok (.dict [])) (.ok (.dict [("y", .str ("z"))])) true).1 =
      .dict [("Medical_NER", opResult (.error (.exception ("rate limited")))),
             ("Summarization", opResult (.ok (.dict [("x", .int 1)]))),
             ("Sentiment_Analysis", opResult (.ok (.dict []))),
             ("SOAP_Note", opResult (.ok (.dict [("y", .str ("z"))])))] ∧
    (([.error (.exception ("rate limited")), .ok (.dict [("x", .int 1)]),
       .ok (.dict []), .ok (.dict [("y", .str ("z"))])] :
        List (Except PyErr PyVal)).filter (fun o => isErrorRecord (opResult o))).length = 1 ∧
    (∀ o v, o ∈ ([.error (.exception ("rate limited")), .ok (.dict [("x", .int 1)]),
       .ok (.dict []), .ok (.dict [("y", .str ("z"))])] : List (Except PyErr PyVal)) →
       o = .ok v → opResult o = v) ∧
    (∀ o er, o ∈ ([.error (.exception ("rate limited")), .ok (.dict [("x", .int 1)]),
       .ok (.dict []), .ok (.dict [("y", .str ("z"))])] : List (Except PyErr PyVal)) →
       o = .error er → opResult o = .dict [("error", .str (errStr er))]) := by
  apply process_transcript_isolates_failures
  · rfl
  · intro v hm
    simp only [List.mem_cons, List.not_mem_nil, or_false] at hm
    rcases hm with h | h | h | h
    · exact Except.noConfusion h
    · injection h with h2
      subst h2
      rfl
    · injection h with h2
      subst h2
      rfl
    · injection h with h2
      subst h2
      rfl

theorem exBind_ok {α β : Type} (a : α) (f : α → Except PyErr β) :
    (Except.ok a >>= f) = f a := rfl

theorem exBind_error {α β : Type} (e : PyErr) (f : α → Except PyErr β) :
    ((Except.error e : Except PyErr α) >>= f) = .error e := rfl

theorem joinStrs_map_str (ss : List String) :
    joinStrs (ss.map .str) = .ok ss := by
  induction ss with
  | nil => rfl
  | cons t ts ih => simp [joinStrs, ih]

theorem renderNER_safe (kvs : List (String × PyVal)) (v : PyVal)
    (hfind : dictLookup kvs ("Medical_NER") = some v) (hsafe : sectionSafe v) :
    ∃ s, renderNER kvs = .ok s := by
  obtain ⟨m, rfl, hcase⟩ := hsafe
  simp only [renderNER, hfind]
  by_cases herr : (dictLookup m ("error")).isSome = true
  · obtain ⟨ev, hev⟩ := Option.isSome_iff_exists.mp herr
    simp [pyContains, herr, pySubscript, hev, exBind_ok]
  · rcases hcase with h | ⟨⟨ss, hss⟩, ⟨ts, hts⟩⟩
    · exact absurd h herr
    · rw [Bool.not_eq_true] at herr
      simp [pyContains, herr, pyGetE, hss, hts, pyJoin, joinStrs_map_str, exBind_ok]

theorem renderSentiment_safe (kvs : List (String × PyVal)) (m : List (String × PyVal))
    (hfind : dictLookup kvs ("Sentiment_Analysis") = some (.dict m)) :
    ∃ s, renderSentiment kvs = .ok s := by
  simp only [renderSentiment, hfind]
  by_cases herr : (dictLookup m ("error")).isSome = true
  · obtain ⟨ev, hev⟩ := Option.isSome_iff_exists.mp herr
    simp [pyContains, herr, pySubscript, hev, exBind_ok]
  · rw [Bool.not_eq_true] at herr
    simp [pyContains, herr, pyGetE, exBind_ok]

theorem renderSOAP_empty (kvs : List (String × PyVal))
    (hfind : dictLookup kvs ("SOAP_Note") = some (.dict [])) :
    renderSOAP kvs = .error (.keyError ("Subjective")) := by
  simp [renderSOAP, hfind, pyContains, dictLookup, format_soap_note_text, pySubscript,
    exBind_ok, exBind_error]

/-- C9 (confirmed).  `process_transcript(transcript, include_soap=False)`
leaves the report's `SOAP_Note` section as the empty record, and rendering
such a report with `export_results(report, "text")` raises
`KeyError("Subjective")`: the text renderer sees no `"error"` key in the
empty SOAP record and `format_soap_note` unconditionally subscripts
`soap_note["Subjective"]`.  The first two sections render without error
for every value the corresponding operations can deliver (an error record,
or — for entities — a validated dict with string-list `Symptoms` and
`Treatment`; the sentiment section only needs a dict). -/
theorem soap_skip_then_text_render_keyerror
    (o1 o2 o3 o4 : Except PyErr PyVal)
    (h1 : sectionSafe (opResult o1))
    (h3 : ∃ m, opResult o3 = .dict m) :
    pvLookup (process_transcript o1 o2 o3 o4 false).1 ("SOAP_Note") = some (.dict []) ∧
    export_results (process_transcript o1 o2 o3 o4 false).1 ("text") =
      .error (.keyError ("Subjective")) := by
  refine ⟨rfl, ?_⟩
  obtain ⟨m3, hm3⟩ := h3
  have hfind1 : dictLookup [("Medical_NER", opResult o1), ("Summarization", opResult o2),
      ("Sentiment_Analysis", opResult o3), ("SOAP_Note", .dict [])]
      ("Medical_NER") = some (opResult o1) := rfl
  have hfind3 : dictLookup [("Medical_NER", opResult o1), ("Summarization", opResult o2),
      ("Sentiment_Analysis", opResult o3), ("SOAP_Note", .dict [])]
      ("Sentiment_Analysis") = some (.dict m3) := by
    rw [show dictLookup [("Medical_NER", opResult o1), ("Summarization", opResult o2),
      ("Sentiment_Analysis", opResult o3), ("SOAP_Note", .dict [])]
      ("Sentiment_Analysis") = some (opResult o3) from rfl, hm3]
  have hfind4 : dictLookup [("Medical_NER", opResult o1), ("Summarization", opResult o2),
      ("Sentiment_Analysis", opResult o3), ("SOAP_Note", .dict [])]
      ("SOAP_Note") = some (.dict []) := rfl
  obtain ⟨a, ha⟩ := renderNER_safe _ _ hfind1 h1
  obtain ⟨b, hb⟩ := renderSentiment_safe _ m3 hfind3
  have hsoap := renderSOAP_empty _ hfind4
  simp [export_results, process_transcript, renderText, ha, hb, hsoap, exBind_ok,
    exBind_error]

/-- Witness for `soap_skip_then_text_render_keyerror` at a concrete
input. -/
theorem soap_skip_then_text_render_keyerror_witness :
    pvLookup (process_transcript (.ok (nerValidate [])) (.ok (.dict []))
        (.ok (.dict [])) (.error (.exception ("x"))) false).1 ("SOAP_Note") =
      some (.dict []) ∧
    export_results (process_transcript (.ok (nerValidate [])) (.ok (.dict []))
        (.ok (.dict [])) (.error (.exception ("x"))) false).1 ("text") =
      .error (.keyError ("Subjective")) := by
  apply soap_skip_then_text_render_keyerror
  · exact ⟨_, rfl, Or.inr ⟨⟨[], rfl⟩, ⟨[], rfl⟩⟩⟩
  · exact ⟨_, rfl⟩

/-! ## Round-trip of `json.dumps(·, indent=2)` and `json.loads` (claim C8) -/

theorem char_valid_toNat (c : Char) :
    c.toNat < 0xD800 ∨ (0xDFFF < c.toNat ∧ c.toNat < 0x110000) := by
  have h := c.valid
  simp [UInt32.isValidChar, Nat.isValidChar] at h
  exact h

theorem char_ne_of_toNat (c d : Char) (h : c.toNat ≠ d.toNat) : c ≠ d := by
  intro heq
  exact h (congrArg Char.toNat heq)

theorem skipWs_cons_not (c : Char) (t : List Char) (h : isWsJ c = false) :
    skipWs (c :: t) = c :: t := by
  simp [skipWs, h]

theorem skipWs_replicate_space (m : Nat) (t : List Char) :
    skipWs (List.replicate m ' ' ++ t) = skipWs t := by
  induction m with
  | zero => rfl
  | succ k ih => simpa [List.replicate_succ, skipWs, isWsJ] using ih

theorem skipWs_nlInd (lvl : Nat) (t : List Char) :
    skipWs (nlInd lvl ++ t) = skipWs t := by
  have : skipWs (('\n' :: List.replicate (2 * lvl) ' ') ++ t) =
      skipWs (List.replicate (2 * lvl) ' ' ++ t) := by
    simp [skipWs, isWsJ]
  simpa [nlInd, skipWs_replicate_space] using this

theorem digitChar_isDigit (d : Nat) (h : d < 10) : isDigitCh (digitChar d) = true := by
  interval_cases d <;> decide

theorem digitVal_digitChar (d : Nat) (h : d < 10) : digitVal (digitChar d) = d := by
  interval_cases d <;> decide

theorem natDigs_small (n : Nat) (h : n < 10) : natDigs n = [digitChar n] := by
  unfold natDigs
  simp [h]

theorem natDigs_large (n : Nat) (h : ¬ n < 10) :
    natDigs n = natDigs (n / 10) ++ [digitChar (n % 10)] := by
  conv_lhs => unfold natDigs
  simp [h]

theorem natDigs_spec (n : Nat) :
    natDigs n ≠ [] ∧ ∀ c ∈ natDigs n, isDigitCh c = true := by
  induction n using Nat.strong_induction_on with
  | _ n ih =>
    by_cases h : n < 10
    · rw [natDigs_small n h]
      exact ⟨by simp, by simp [digitChar_isDigit n h]⟩
    · rw [natDigs_large n h]
      have ih' := ih (n / 10) (Nat.div_lt_self (by omega) (by omega))
      refine ⟨by simp, ?_⟩
      intro c hc
      rcases List.mem_append.mp hc with hc | hc
      · exact ih'.2 c hc
      · simp only [List.mem_singleton] at hc
        subst hc
        exact digitChar_isDigit _ (Nat.mod_lt _ (by omega))

theorem parseDigitsGo_natDigs (n : Nat) : ∀ acc rest,
    parseDigitsGo acc (natDigs n ++ rest) =
      parseDigitsGo (acc * 10 ^ (natDigs n).length + n) rest := by
  induction n using Nat.strong_induction_on with
  | _ n ih =>
    intro acc rest
    by_cases h : n < 10
    · rw [natDigs_small n h]
      simp only [List.cons_append, List.nil_append, parseDigitsGo,
        digitChar_isDigit n h, if_true, digitVal_digitChar n h, List.length_singleton]
      rw [show 10 * acc + n = acc * 10 ^ 1 + n by ring]
      rfl
    · rw [natDigs_large n h, List.append_assoc,
        ih (n / 10) (Nat.div_lt_self (by omega) (by omega)) acc _]
      have hm : n % 10 < 10 := Nat.mod_lt _ (by omega)
      simp only [List.cons_append, List.nil_append, parseDigitsGo,
        digitChar_isDigit _ hm, if_true, digitVal_digitChar _ hm]
      simp only [List.length_append, List.length_singleton]
      have harith : 10 * (acc * 10 ^ (natDigs (n / 10)).length + n / 10) + n % 10 =
          acc * 10 ^ ((natDigs (n / 10)).length + 1) + n := by
        calc 10 * (acc * 10 ^ (natDigs (n / 10)).length + n / 10) + n % 10
            = acc * (10 ^ (natDigs (n / 10)).length * 10) + (10 * (n / 10) + n % 10) := by
              ring
          _ = acc * 10 ^ ((natDigs (n / 10)).length + 1) + n := by
              rw [pow_succ, Nat.div_add_mod]
      rw [harith]
      rfl

theorem parseDigitsGo_stop (acc : Nat) (rest : List Char) (h : restOk rest) :
    parseDigitsGo acc rest = (acc, rest) := by
  cases rest with
  | nil => rfl
  | cons c t =>
    have hc : isDigitCh c = false := h
    simp [parseDigitsGo, hc]

theorem parseDigitsGo_natDigs_stop (n : Nat) (rest : List Char) (h : restOk rest) :
    parseDigitsGo 0 (natDigs n ++ rest) = (n, rest) := by
  rw [parseDigitsGo_natDigs n 0 rest, parseDigitsGo_stop _ rest h]
  simp

theorem hexVal_hexDigitChar (d : Nat) (h : d < 16) : hexVal (hexDigitChar d) = some d := by
  interval_cases d <;> decide

theorem parse4Hex_digits (n : Nat) (h : n < 65536) (rest : List Char) :
    parse4Hex (hexDigitChar (n / 4096 % 16) :: hexDigitChar (n / 256 % 16) ::
      hexDigitChar (n / 16 % 16) :: hexDigitChar (n % 16) :: rest) = some (n, rest) := by
  have h1 : n / 4096 % 16 < 16 := Nat.mod_lt _ (by omega)
  have h2 : n / 256 % 16 < 16 := Nat.mod_lt _ (by omega)
  have h3 : n / 16 % 16 < 16 := Nat.mod_lt _ (by omega)
  have h4 : n % 16 < 16 := Nat.mod_lt _ (by omega)
  simp only [parse4Hex, hexVal_hexDigitChar _ h1, hexVal_hexDigitChar _ h2,
    hexVal_hexDigitChar _ h3, hexVal_hexDigitChar _ h4, Option.bind_eq_bind,
    Option.some_bind]
  congr 2
  omega

theorem uEsc_parse (n : Nat) (h : n < 65536) (rest : List Char) :
    uEsc n ++ rest = '\\' :: 'u' :: (hexDigitChar (n / 4096 % 16) :: hexDigitChar (n / 256 % 16) ::
      hexDigitChar (n / 16 % 16) :: hexDigitChar (n % 16) :: rest) ∧
    parse4Hex (hexDigitChar (n / 4096 % 16) :: hexDigitChar (n / 256 % 16) ::
      hexDigitChar (n / 16 % 16) :: hexDigitChar (n % 16) :: rest) = some (n, rest) :=
  ⟨rfl, parse4Hex_digits n h rest⟩

theorem parseStrBody_quote (f : Nat) (rest : List Char) :
    parseStrBody (f + 1) ('"' :: rest) = some ([], rest) := by
  simp [parseStrBody]

theorem parseStrBody_plain (f : Nat) (c : Char) (rest : List Char)
    (h1 : ¬ c = '"') (h2 : ¬ c = '\\') :
    parseStrBody (f + 1) (c :: rest) =
      (parseStrBody f rest).map (fun p => (c :: p.1, p.2)) := by
  simp [parseStrBody, h1, h2]

theorem parseStrBody_esc2 (f : Nat) (e : Char) (t : List Char) (u : Char)
    (he : ¬ e = 'u') (hu : unescCh e = some u) :
    parseStrBody (f + 1) ('\\' :: e :: t) =
      (parseStrBody f t).map (fun p => (u :: p.1, p.2)) := by
  simp [parseStrBody, he, hu]

theorem parseStrBody_uBMP (f : Nat) (t t1 : List Char) (n : Nat)
    (hp : parse4Hex t = some (n, t1))
    (hno1 : ¬ (0xD800 ≤ n ∧ n ≤ 0xDBFF)) (hno2 : ¬ (0xDC00 ≤ n ∧ n ≤ 0xDFFF)) :
    parseStrBody (f + 1) ('\\' :: 'u' :: t) =
      (parseStrBody f t1).map (fun p => (Char.ofNat n :: p.1, p.2)) := by
  simp [parseStrBody, hp, hno1, hno2]

theorem parseStrBody_uPair (f : Nat) (t t2 t3 : List Char) (n m : Nat)
    (hp : parse4Hex t = some (n, '\\' :: 'u' :: t2))
    (hhi : 0xD800 ≤ n ∧ n ≤ 0xDBFF)
    (hp2 : parse4Hex t2 = some (m, t3))
    (hlo : 0xDC00 ≤ m ∧ m ≤ 0xDFFF) :
    parseStrBody (f + 1) ('\\' :: 'u' :: t) =
      (parseStrBody f t3).map
        (fun p => (Char.ofNat (0x10000 + (n - 0xD800) * 0x400 + (m - 0xDC00)) :: p.1, p.2)) := by
  simp [parseStrBody, hp, hhi, hp2, hlo]

theorem parseStrBody_roundtrip : ∀ (cs : List Char) (rest : List Char) (fuel : Nat),
    cs.length + 1 ≤ fuel →
    parseStrBody fuel (cs.flatMap escChar ++ '"' :: rest) = some (cs, rest) := by
  intro cs
  induction cs with
  | nil =>
    intro rest fuel hf
    obtain ⟨f, rfl⟩ : ∃ f, fuel = f + 1 := ⟨fuel - 1, by omega⟩
    rw [List.flatMap_nil, List.nil_append, parseStrBody_quote]
  | cons c cs ih =>
    intro rest fuel hf
    obtain ⟨f, rfl⟩ : ∃ f, fuel = f + 1 := ⟨fuel - 1, by omega⟩
    have hrec := ih rest f (by simp only [List.length_cons] at hf; omega)
    rw [List.flatMap_cons, List.append_assoc]
    by_cases h1 : c = '"'
    · subst h1
      rw [show escChar '"' = ['\\', '"'] from rfl, List.cons_append, List.cons_append,
        List.nil_append, parseStrBody_esc2 f '"' _ '"' (by decide) rfl, hrec]
      rfl
    · by_cases h2 : c = '\\'
      · subst h2
        rw [show escChar '\\' = ['\\', '\\'] from rfl, List.cons_append, List.cons_append,
          List.nil_append, parseStrBody_esc2 f '\\' _ '\\' (by decide) rfl, hrec]
        rfl
      · by_cases h3 : c = '\n'
        · subst h3
          rw [show escChar '\n' = ['\\', 'n'] from rfl, List.cons_append, List.cons_append,
            List.nil_append, parseStrBody_esc2 f 'n' _ '\n' (by decide) rfl, hrec]
          rfl
        · by_cases h4 : c = '\t'
          · subst h4
            rw [show escChar '\t' = ['\\', 't'] from rfl, List.cons_append, List.cons_append,
              List.nil_append, parseStrBody_esc2 f 't' _ '\t' (by decide) rfl, hrec]
            rfl
          · by_cases h5 : c = '\r'
            · subst h5
              rw [show escChar '\r' = ['\\', 'r'] from rfl, List.cons_append, List.cons_append,
                List.nil_append, parseStrBody_esc2 f 'r' _ '\r' (by decide) rfl, hrec]
              rfl
            · by_cases h6 : c.toNat = 8
              · have hofn : Char.ofNat 8 = c := by
                  rw [← h6]; exact Char.ofNat_toNat c
                have hesc : escChar c = ['\\', 'b'] := by
                  simp [escChar, h1, h2, h3, h4, h5, h6]
                rw [hesc, List.cons_append, List.cons_append, List.nil_append,
                  parseStrBody_esc2 f 'b' _ (Char.ofNat 8) (by decide) rfl, hrec, hofn]
                rfl
              · by_cases h7 : c.toNat = 12
                · have hofn : Char.ofNat 12 = c := by
                    rw [← h7]; exact Char.ofNat_toNat c
                  have hesc : escChar c = ['\\', 'f'] := by
                    simp [escChar, h1, h2, h3, h4, h5, h6, h7]
                  rw [hesc, List.cons_append, List.cons_append, List.nil_append,
                    parseStrBody_esc2 f 'f' _ (Char.ofNat 12) (by decide) rfl, hrec, hofn]
                  rfl
                · by_cases h8 : c.toNat < 0x20 ∨ 0x7e < c.toNat
                  · by_cases h9 : c.toNat < 0x10000
                    · -- a BMP character escaped as \uXXXX
                      have hno1 : ¬ (0xD800 ≤ c.toNat ∧ c.toNat ≤ 0xDBFF) := by
                        rcases char_valid_toNat c with hv | hv <;> omega
                      have hno2 : ¬ (0xDC00 ≤ c.toNat ∧ c.toNat ≤ 0xDFFF) := by
                        rcases char_valid_toNat c with hv | hv <;> omega
                      have hesc : escChar c = uEsc c.toNat := by
                        simp [escChar, h1, h2, h3, h4, h5, h6, h7, h8, h9]
                      rw [hesc]
                      obtain ⟨ht, hp⟩ := uEsc_parse c.toNat (by omega) _
                      rw [ht, parseStrBody_uBMP f _ _ c.toNat hp hno1 hno2, hrec,
                        Char.ofNat_toNat]
                      rfl
                    · -- an astral character escaped as a surrogate pair
                      have hval := char_valid_toNat c
                      have hlt : c.toNat < 0x110000 := by rcases hval with hv | hv <;> omega
                      have hge : 0x10000 ≤ c.toNat := by omega
                      have hesc : escChar c =
                          uEsc (0xD800 + (c.toNat - 0x10000) / 0x400) ++
                            uEsc (0xDC00 + (c.toNat - 0x10000) % 0x400) := by
                        simp [escChar, h1, h2, h3, h4, h5, h6, h7, h8, h9]
                      rw [hesc, List.append_assoc]
                      obtain ⟨ht, hp⟩ := uEsc_parse (0xD800 + (c.toNat - 0x10000) / 0x400)
                        (by omega)
                        (uEsc (0xDC00 + (c.toNat - 0x10000) % 0x400) ++
                          (cs.flatMap escChar ++ '"' :: rest))
                      obtain ⟨ht2, hp2⟩ := uEsc_parse (0xDC00 + (c.toNat - 0x10000) % 0x400)
                        (by omega) ((cs.flatMap escChar ++ '"' :: rest))
                      rw [ht2] at hp
                      rw [ht, ht2, parseStrBody_uPair f _ _ _ _ _ hp (by omega) hp2 (by omega),
                        hrec]
                      have harg : 0x10000 +
                          (0xD800 + (c.toNat - 0x10000) / 0x400 - 0xD800) * 0x400 +
                          (0xDC00 + (c.toNat - 0x10000) % 0x400 - 0xDC00) = c.toNat := by
                        omega
                      rw [harg, Char.ofNat_toNat]
                      rfl
                  · -- a printable ASCII character other than quote or backslash
                    have hesc : escChar c = [c] := by
                      simp [escChar, h1, h2, h3, h4, h5, h6, h7, h8]
                    rw [hesc, List.cons_append, List.nil_append,
                      parseStrBody_plain f c _ h1 h2, hrec]
                    rfl

theorem isDigitCh_facts (c : Char) (h : isDigitCh c = true) :
    isWsJ c = false ∧ c ≠ 'n' ∧ c ≠ 't' ∧ c ≠ 'f' ∧ c ≠ '"' ∧ c ≠ '[' ∧
      c ≠ '\x7b' ∧ c ≠ '-' ∧ c ≠ ']' ∧ c ≠ '\x7d' := by
  simp only [isDigitCh, Bool.and_eq_true, decide_eq_true_eq] at h
  have hne : ∀ d : Char, (d.toNat < 48 ∨ 57 < d.toNat) → c ≠ d := by
    intro d hd heq
    rw [heq] at h
    omega
  have h32 : c ≠ ' ' := hne ' ' (by decide)
  have h9t : c ≠ '\t' := hne '\t' (by decide)
  have h10 : c ≠ '\n' := hne '\n' (by decide)
  have h13 : c ≠ '\r' := hne '\r' (by decide)
  refine ⟨by simp [isWsJ, h32, h9t, h10, h13], hne 'n' (by decide), hne 't' (by decide),
    hne 'f' (by decide), hne '"' (by decide), hne '[' (by decide), hne '\x7b' (by decide),
    hne '-' (by decide), hne ']' (by decide), hne '\x7d' (by decide)⟩

theorem escChar_length_pos (c : Char) : 1 ≤ (escChar c).length := by
  unfold escChar
  split_ifs <;> simp [uEsc]

theorem flatMap_escChar_length (cs : List Char) :
    cs.length ≤ (cs.flatMap escChar).length := by
  induction cs with
  | nil => simp
  | cons c cs ih =>
    rw [List.flatMap_cons]
    simp only [List.length_cons, List.length_append]
    have := escChar_length_pos c
    omega

theorem string_mk_toList (s : String) : (⟨s.toList⟩ : String) = s := rfl

theorem parseVal_quote (f : Nat) (body : List Char) :
    parseVal (f + 1) ('"' :: body) =
      (parseStrBody (body.length + 1) body).map (fun p => (PyVal.str ⟨p.1⟩, p.2)) := by
  simp [parseVal]

theorem parseVal_str (f : Nat) (s : String) (rest : List Char) :
    parseVal (f + 1) (escStr s ++ rest) = some (.str s, rest) := by
  have hassoc : escStr s ++ rest = '"' :: (s.toList.flatMap escChar ++ '"' :: rest) := by
    simp [escStr]
  rw [hassoc, parseVal_quote]
  have hlen : (s.toList).length + 1 ≤ (s.toList.flatMap escChar ++ '"' :: rest).length + 1 := by
    have := flatMap_escChar_length s.toList
    simp only [List.length_append, List.length_cons]
    omega
  rw [parseStrBody_roundtrip s.toList rest _ hlen]
  simp [string_mk_toList]

theorem parseVal_null (f : Nat) (rest : List Char) :
    parseVal (f + 1) ('n' :: 'u' :: 'l' :: 'l' :: rest) = some (.none, rest) := by
  simp [parseVal, dropLit]

theorem parseVal_true (f : Nat) (rest : List Char) :
    parseVal (f + 1) ('t' :: 'r' :: 'u' :: 'e' :: rest) = some (.bool true, rest) := by
  simp [parseVal, dropLit]

theorem parseVal_false (f : Nat) (rest : List Char) :
    parseVal (f + 1) ('f' :: 'a' :: 'l' :: 's' :: 'e' :: rest) = some (.bool false, rest) := by
  simp [parseVal, dropLit]

theorem parseVal_digitHead (f : Nat) (d : Char) (t : List Char) (hd : isDigitCh d = true) :
    parseVal (f + 1) (d :: t) =
      some (.int ((parseDigitsGo 0 (d :: t)).1 : Int), (parseDigitsGo 0 (d :: t)).2) := by
  obtain ⟨_, hn, ht', hf', hq, hlb, hlc, hm, _, _⟩ := isDigitCh_facts d hd
  simp [parseVal, hn, ht', hf', hq, hlb, hlc, hm, hd]

theorem parseVal_negHead (f : Nat) (d : Char) (t : List Char) (hd : isDigitCh d = true) :
    parseVal (f + 1) ('-' :: d :: t) =
      some (.int (-((parseDigitsGo 0 (d :: t)).1 : Int)), (parseDigitsGo 0 (d :: t)).2) := by
  simp [parseVal, hd]

theorem parseVal_int (f : Nat) (n : Int) (rest : List Char) (h : restOk rest) :
    parseVal (f + 1) (intChars n ++ rest) = some (.int n, rest) := by
  obtain ⟨d, ds, hds⟩ : ∃ d ds, natDigs n.natAbs = d :: ds := by
    rcases hnd : natDigs n.natAbs with _ | ⟨d, ds⟩
    · exact absurd hnd (natDigs_spec n.natAbs).1
    · exact ⟨d, ds, rfl⟩
  have hd : isDigitCh d = true := (natDigs_spec n.natAbs).2 d (by rw [hds]; simp)
  by_cases hneg : n < 0
  · have hstream : intChars n ++ rest = '-' :: (d :: (ds ++ rest)) := by
      simp [intChars, hneg, hds]
    rw [hstream, parseVal_negHead f d _ hd,
      show d :: (ds ++ rest) = natDigs n.natAbs ++ rest by rw [hds, List.cons_append],
      parseDigitsGo_natDigs_stop n.natAbs rest h]
    have hn : -(n.natAbs : Int) = n := by omega
    simp only [hn]
  · have hstream : intChars n ++ rest = d :: (ds ++ rest) := by
      simp [intChars, hneg, hds]
    rw [hstream, parseVal_digitHead f d _ hd,
      show d :: (ds ++ rest) = natDigs n.natAbs ++ rest by rw [hds, List.cons_append],
      parseDigitsGo_natDigs_stop n.natAbs rest h]
    have hn : (n.natAbs : Int) = n := by omega
    simp only [hn]

theorem emit_head (lvl : Nat) (v : PyVal) :
    ∃ d t, emit lvl v = d :: t ∧ isWsJ d = false ∧ d ≠ ']' ∧ d ≠ '\x7d' ∧ d ≠ ',' := by
  cases v with
  | none =>
    exact ⟨'n', ['u', 'l', 'l'], by simp [emit], by decide, by decide, by decide, by decide⟩
  | bool b =>
    cases b with
    | true =>
      exact ⟨'t', ['r', 'u', 'e'], by simp [emit], by decide, by decide, by decide, by decide⟩
    | false =>
      exact ⟨'f', ['a', 'l', 's', 'e'], by simp [emit], by decide, by decide, by decide, by decide⟩
  | int n =>
    by_cases hneg : n < 0
    · exact ⟨'-', natDigs n.natAbs, by simp [emit, intChars, hneg], by decide, by decide,
        by decide, by decide⟩
    · obtain ⟨d, ds, hds⟩ : ∃ d ds, natDigs n.natAbs = d :: ds := by
        rcases hnd : natDigs n.natAbs with _ | ⟨d, ds⟩
        · exact absurd hnd (natDigs_spec n.natAbs).1
        · exact ⟨d, ds, rfl⟩
      have hd : isDigitCh d = true := (natDigs_spec n.natAbs).2 d (by rw [hds]; simp)
      obtain ⟨hws, _, _, _, _, _, _, _, hrb, hrc⟩ := isDigitCh_facts d hd
      have hcomma : d ≠ ',' := by
        simp only [isDigitCh, Bool.and_eq_true, decide_eq_true_eq] at hd
        intro heq
        rw [heq] at hd
        exact absurd hd (by decide)
      exact ⟨d, ds, by simp [emit, intChars, hneg, hds], hws, hrb, hrc, hcomma⟩
  | str s =>
    exact ⟨'"', s.toList.flatMap escChar ++ ['"'], by simp [emit, escStr], by decide,
      by decide, by decide, by decide⟩
  | list xs =>
    cases xs with
    | nil => exact ⟨'[', [']'], by simp [emit], by decide, by decide, by decide, by decide⟩
    | cons x xs =>
      exact ⟨'[', nlInd (lvl + 1) ++ emit (lvl + 1) x ++ emitArrRest (lvl + 1) xs ++
        nlInd lvl ++ [']'], by simp [emit], by decide, by decide, by decide, by decide⟩
  | dict kvs =>
    cases kvs with
    | nil =>
      exact ⟨'\x7b', ['\x7d'], by simp [emit], by decide, by decide, by decide, by decide⟩
    | cons kv kvs =>
      obtain ⟨k, v⟩ := kv
      exact ⟨'\x7b', nlInd (lvl + 1) ++ escStr k ++ [':', ' '] ++ emit (lvl + 1) v ++
        emitObjRest (lvl + 1) kvs ++ nlInd lvl ++ ['\x7d'],
        by simp [emit], by decide, by decide, by decide, by decide⟩

theorem skipWs_emit (lvl : Nat) (v : PyVal) (rest : List Char) :
    skipWs (emit lvl v ++ rest) = emit lvl v ++ rest := by
  obtain ⟨d, t, hdt, hws, _, _, _⟩ := emit_head lvl v
  rw [hdt, List.cons_append, skipWs_cons_not d _ hws]

theorem skipWs_space (t : List Char) : skipWs (' ' :: t) = skipWs t := by
  simp [skipWs, isWsJ]

theorem skipWs_escStr (s : String) (t : List Char) :
    skipWs (escStr s ++ t) = escStr s ++ t := by
  rw [show escStr s ++ t = '"' :: (s.toList.flatMap escChar ++ ('"' :: t)) from by simp [escStr]]
  exact skipWs_cons_not _ _ (by decide)

theorem parseVal_arrEmpty (f : Nat) (rest : List Char) :
    parseVal (f + 1) ('[' :: ']' :: rest) = some (.list [], rest) := by
  simp [parseVal, skipWs, isWsJ]

theorem parseVal_objEmpty (f : Nat) (rest : List Char) :
    parseVal (f + 1) ('\x7b' :: '\x7d' :: rest) = some (.dict [], rest) := by
  simp [parseVal, skipWs, isWsJ]

theorem parseVal_arrCons (f : Nat) (r0 : List Char) (d : Char) (r2 : List Char)
    (hsk : skipWs r0 = d :: r2) (hd : d ≠ ']') :
    parseVal (f + 1) ('[' :: r0) =
      (parseArrItems f (d :: r2)).map (fun p => (PyVal.list p.1, p.2)) := by
  simp [parseVal, hsk, hd]

theorem parseVal_objCons (f : Nat) (r0 : List Char) (d : Char) (r2 : List Char)
    (hsk : skipWs r0 = d :: r2) (hd : d ≠ '\x7d') :
    parseVal (f + 1) ('\x7b' :: r0) =
      (parseObjItems f (d :: r2)).map (fun p => (PyVal.dict p.1, p.2)) := by
  simp [parseVal, hsk, hd]

theorem parseArrItems_last (f : Nat) (cs r1 r2 : List Char) (v : PyVal)
    (hv : parseVal f cs = some (v, r1))
    (h1 : skipWs r1 = ']' :: r2) :
    parseArrItems (f + 1) cs = some ([v], r2) := by
  simp [parseArrItems, hv, h1]

theorem parseArrItems_comma (f : Nat) (cs r1 r2 : List Char) (v : PyVal)
    (vs : List PyVal) (r3 : List Char)
    (hv : parseVal f cs = some (v, r1))
    (h1 : skipWs r1 = ',' :: r2)
    (hrec : parseArrItems f (skipWs r2) = some (vs, r3)) :
    parseArrItems (f + 1) cs = some (v :: vs, r3) := by
  simp [parseArrItems, hv, h1, hrec]

theorem parseObjItems_closed (f : Nat) (r0 kcs r1 r2 r3 r4 : List Char) (v : PyVal)
    (hs : parseStrBody (r0.length + 1) r0 = some (kcs, r1))
    (h1 : skipWs r1 = ':' :: r2)
    (hv : parseVal f (skipWs r2) = some (v, r3))
    (h3 : skipWs r3 = '\x7d' :: r4) :
    parseObjItems (f + 1) ('"' :: r0) = some ([(⟨kcs⟩, v)], r4) := by
  simp [parseObjItems, hs, h1, hv, h3]

theorem parseObjItems_comma (f : Nat) (r0 kcs r1 r2 r3 r4 : List Char) (v : PyVal)
    (kvs : List (String × PyVal)) (r5 : List Char)
    (hs : parseStrBody (r0.length + 1) r0 = some (kcs, r1))
    (h1 : skipWs r1 = ':' :: r2)
    (hv : parseVal f (skipWs r2) = some (v, r3))
    (h3 : skipWs r3 = ',' :: r4)
    (hrec : parseObjItems f (skipWs r4) = some (kvs, r5)) :
    parseObjItems (f + 1) ('"' :: r0) = some ((⟨kcs⟩, v) :: kvs, r5) := by
  simp [parseObjItems, hs, h1, hv, h3, hrec]

theorem restOk_arr (lvl m : Nat) (xs : List PyVal) (t : List Char) :
    restOk (emitArrRest lvl xs ++ (nlInd m ++ ']' :: t)) := by
  cases xs with
  | nil =>
    rw [show emitArrRest lvl [] ++ (nlInd m ++ ']' :: t) =
        '\n' :: (List.replicate (2 * m) ' ' ++ ']' :: t) from by simp [emitArrRest, nlInd]]
    exact (by decide : isDigitCh ('\n') = false)
  | cons y ys =>
    rw [show emitArrRest lvl (y :: ys) ++ (nlInd m ++ ']' :: t) =
        ',' :: (nlInd lvl ++ (emit lvl y ++ (emitArrRest lvl ys ++ (nlInd m ++ ']' :: t))))
        from by simp [emitArrRest]]
    exact (by decide : isDigitCh (',') = false)

theorem restOk_obj (lvl m : Nat) (kvs : List (String × PyVal)) (t : List Char) :
    restOk (emitObjRest lvl kvs ++ (nlInd m ++ '\x7d' :: t)) := by
  cases kvs with
  | nil =>
    rw [show emitObjRest lvl [] ++ (nlInd m ++ '\x7d' :: t) =
        '\n' :: (List.replicate (2 * m) ' ' ++ '\x7d' :: t) from by simp [emitObjRest, nlInd]]
    exact (by decide : isDigitCh ('\n') = false)
  | cons kv kvs =>
    obtain ⟨k2, v2⟩ := kv
    rw [show emitObjRest lvl ((k2, v2) :: kvs) ++ (nlInd m ++ '\x7d' :: t) =
        ',' :: (nlInd lvl ++ (escStr k2 ++ (':' :: ' ' :: (emit lvl v2 ++
          (emitObjRest lvl kvs ++ (nlInd m ++ '\x7d' :: t)))))) from by simp [emitObjRest]]
    exact (by decide : isDigitCh (',') = false)

theorem pbound_list_cons (x : PyVal) (xs : List PyVal) :
    pbound (.list (x :: xs)) = 1 + pboundL (x :: xs) := by
  simp [pbound]

theorem pbound_dict_cons (kv : String × PyVal) (kvs : List (String × PyVal)) :
    pbound (.dict (kv :: kvs)) = 1 + pboundD (kv :: kvs) := by
  simp [pbound]

theorem pboundL_cons (x : PyVal) (xs : List PyVal) :
    pboundL (x :: xs) = 1 + pbound x + pboundL xs := by
  simp [pboundL]

theorem pboundD_cons (k : String) (v : PyVal) (kvs : List (String × PyVal)) :
    pboundD ((k, v) :: kvs) = 1 + pbound v + pboundD kvs := by
  simp [pboundD]

theorem pbound_pos (v : PyVal) : 1 ≤ pbound v := by
  cases v with
  | none => simp [pbound]
  | bool b => simp [pbound]
  | int n => simp [pbound]
  | str s => simp [pbound]
  | list xs => cases xs <;> simp [pbound]
  | dict kvs => cases kvs <;> simp [pbound]

theorem pboundL_pos (xs : List PyVal) : 1 ≤ pboundL xs := by
  cases xs with
  | nil => simp [pboundL]
  | cons x xs => rw [pboundL_cons]; omega

theorem pboundD_pos (kvs : List (String × PyVal)) : 1 ≤ pboundD kvs := by
  cases kvs with
  | nil => simp [pboundD]
  | cons kv kvs =>
    obtain ⟨k, v⟩ := kv
    rw [pboundD_cons]
    omega

/-- The parse-fuel bound of a value never exceeds the length of its
serialization, so `pyJsonLoads`'s length-derived fuel always suffices. -/
theorem pbound_emit : ∀ N : Nat,
    (∀ v : PyVal, pbound v ≤ N → ∀ lvl, pbound v ≤ (emit lvl v).length) ∧
    (∀ xs : List PyVal, pboundL xs ≤ N → ∀ lvl,
      pboundL xs ≤ (emitArrRest lvl xs).length + 1) ∧
    (∀ kvs : List (String × PyVal), pboundD kvs ≤ N → ∀ lvl,
      pboundD kvs ≤ (emitObjRest lvl kvs).length + 1) := by
  intro N
  induction N using Nat.strong_induction_on with
  | _ N ih =>
    refine ⟨?_, ?_, ?_⟩
    · intro v hN lvl
      cases v with
      | none => simp [emit, pbound]
      | bool b => cases b <;> simp [emit, pbound]
      | int n =>
        have hne : intChars n ≠ [] := by
          unfold intChars
          split_ifs
          · simp
          · exact (natDigs_spec n.natAbs).1
        have hlen : 1 ≤ (intChars n).length := List.length_pos.mpr hne
        rw [show pbound (.int n) = 1 from by simp [pbound],
          show emit lvl (.int n) = intChars n from by simp [emit]]
        exact hlen
      | str s =>
        rw [show pbound (.str s) = 1 from by simp [pbound],
          show emit lvl (.str s) = escStr s from by simp [emit]]
        simp only [escStr, List.length_cons, List.length_append]
        omega
      | list xs =>
        cases xs with
        | nil => simp [emit, pbound]
        | cons x xs =>
          have hb : pbound x < N ∧ pboundL xs < N := by
            rw [pbound_list_cons, pboundL_cons] at hN
            have := pbound_pos x
            have := pboundL_pos xs
            omega
          have hx := (ih (pbound x) hb.1).1 x le_rfl (lvl + 1)
          have hxs := (ih (pboundL xs) hb.2).2.1 xs le_rfl (lvl + 1)
          rw [pbound_list_cons, pboundL_cons]
          simp only [emit, nlInd, List.length_cons, List.length_append,
            List.length_replicate, List.length_singleton]
          omega
      | dict kvs =>
        cases kvs with
        | nil => simp [emit, pbound]
        | cons kv kvs =>
          obtain ⟨k, v⟩ := kv
          have hb : pbound v < N ∧ pboundD kvs < N := by
            rw [pbound_dict_cons, pboundD_cons] at hN
            have := pbound_pos v
            have := pboundD_pos kvs
            omega
          have hv := (ih (pbound v) hb.1).1 v le_rfl (lvl + 1)
          have hkvs := (ih (pboundD kvs) hb.2).2.2 kvs le_rfl (lvl + 1)
          rw [pbound_dict_cons, pboundD_cons]
          simp only [emit, nlInd, escStr, List.length_cons, List.length_append,
            List.length_replicate, List.length_singleton]
          omega
    · intro xs hN lvl
      cases xs with
      | nil => simp [pboundL, emitArrRest]
      | cons x xs =>
        have hb : pbound x < N ∧ pboundL xs < N := by
          rw [pboundL_cons] at hN
          have := pbound_pos x
          have := pboundL_pos xs
          omega
        have hx := (ih (pbound x) hb.1).1 x le_rfl lvl
        have hxs := (ih (pboundL xs) hb.2).2.1 xs le_rfl lvl
        rw [pboundL_cons]
        simp only [emitArrRest, nlInd, List.length_cons, List.length_append,
          List.length_replicate]
        omega
    · intro kvs hN lvl
      cases kvs with
      | nil => simp [pboundD, emitObjRest]
      | cons kv kvs =>
        obtain ⟨k, v⟩ := kv
        have hb : pbound v < N ∧ pboundD kvs < N := by
          rw [pboundD_cons] at hN
          have := pbound_pos v
          have := pboundD_pos kvs
          omega
        have hv := (ih (pbound v) hb.1).1 v le_rfl lvl
        have hkvs := (ih (pboundD kvs) hb.2).2.2 kvs le_rfl lvl
        rw [pboundD_cons]
        simp only [emitObjRest, nlInd, escStr, List.length_cons, List.length_append,
          List.length_replicate]
        omega

/-- The parser reads back exactly what the indent-2 emitter wrote: one
statement each for a value, a non-empty array-item stream, and a
non-empty object-member stream, proved together by strong induction on
the parse-fuel bound. -/
theorem parse_emit_aux : ∀ N : Nat,
    (∀ v : PyVal, pbound v ≤ N → ∀ lvl rest f, pbound v ≤ f → restOk rest →
      parseVal f (emit lvl v ++ rest) = some (v, rest)) ∧
    (∀ (x : PyVal) (xs : List PyVal), pboundL (x :: xs) ≤ N →
      ∀ lvl m rest f, pboundL (x :: xs) ≤ f →
      parseArrItems f (emit lvl x ++ (emitArrRest lvl xs ++ (nlInd m ++ ']' :: rest))) =
        some (x :: xs, rest)) ∧
    (∀ (k : String) (v : PyVal) (kvs : List (String × PyVal)), pboundD ((k, v) :: kvs) ≤ N →
      ∀ lvl m rest f, pboundD ((k, v) :: kvs) ≤ f →
      parseObjItems f (escStr k ++ ':' :: ' ' ::
          (emit lvl v ++ (emitObjRest lvl kvs ++ (nlInd m ++ '\x7d' :: rest)))) =
        some ((k, v) :: kvs, rest)) := by
  intro N
  induction N using Nat.strong_induction_on with
  | _ N ih =>
    refine ⟨?_, ?_, ?_⟩
    · -- a single value
      intro v hvN lvl rest f hvf hrest
      obtain ⟨f, rfl⟩ : ∃ g, f = g + 1 :=
        ⟨f - 1, by have h1 := pbound_pos v; omega⟩
      cases v with
      | none =>
        rw [show emit lvl PyVal.none ++ rest = 'n' :: 'u' :: 'l' :: 'l' :: rest
            from by simp [emit]]
        exact parseVal_null f rest
      | bool b =>
        cases b with
        | true =>
          rw [show emit lvl (PyVal.bool true) ++ rest = 't' :: 'r' :: 'u' :: 'e' :: rest
              from by simp [emit]]
          exact parseVal_true f rest
        | false =>
          rw [show emit lvl (PyVal.bool false) ++ rest =
              'f' :: 'a' :: 'l' :: 's' :: 'e' :: rest from by simp [emit]]
          exact parseVal_false f rest
      | int n =>
        rw [show emit lvl (PyVal.int n) = intChars n from by simp [emit]]
        exact parseVal_int f n rest hrest
      | str s =>
        rw [show emit lvl (PyVal.str s) = escStr s from by simp [emit]]
        exact parseVal_str f s rest
      | list xs =>
        cases xs with
        | nil =>
          rw [show emit lvl (PyVal.list []) ++ rest = '[' :: ']' :: rest from by simp [emit]]
          exact parseVal_arrEmpty f rest
        | cons x xs =>
          have hfuel : pboundL (x :: xs) ≤ f := by
            rw [pbound_list_cons] at hvf
            omega
          have hlt : pboundL (x :: xs) < N := by
            rw [pbound_list_cons] at hvN
            omega
          obtain ⟨d, t, hdt, hws, hrb, hrc, hcm⟩ := emit_head (lvl + 1) x
          have hstream : emit lvl (PyVal.list (x :: xs)) ++ rest =
              '[' :: (nlInd (lvl + 1) ++ (emit (lvl + 1) x ++ (emitArrRest (lvl + 1) xs ++
                (nlInd lvl ++ (']' :: rest))))) := by
            simp [emit]
          have hsk : skipWs (nlInd (lvl + 1) ++ (emit (lvl + 1) x ++
              (emitArrRest (lvl + 1) xs ++ (nlInd lvl ++ (']' :: rest))))) =
              d :: (t ++ (emitArrRest (lvl + 1) xs ++ (nlInd lvl ++ (']' :: rest)))) := by
            rw [skipWs_nlInd, skipWs_emit, hdt, List.cons_append]
          rw [hstream, parseVal_arrCons f _ d _ hsk hrb,
            show d :: (t ++ (emitArrRest (lvl + 1) xs ++ (nlInd lvl ++ (']' :: rest)))) =
              emit (lvl + 1) x ++ (emitArrRest (lvl + 1) xs ++ (nlInd lvl ++ (']' :: rest)))
              from by rw [hdt, List.cons_append],
            (ih (pboundL (x :: xs)) hlt).2.1 x xs le_rfl (lvl + 1) lvl rest f hfuel]
          rfl
      | dict kvs =>
        cases kvs with
        | nil =>
          rw [show emit lvl (PyVal.dict []) ++ rest = '\x7b' :: '\x7d' :: rest
              from by simp [emit]]
          exact parseVal_objEmpty f rest
        | cons kv kvs =>
          obtain ⟨k, v⟩ := kv
          have hfuel : pboundD ((k, v) :: kvs) ≤ f := by
            rw [pbound_dict_cons] at hvf
            omega
          have hlt : pboundD ((k, v) :: kvs) < N := by
            rw [pbound_dict_cons] at hvN
            omega
          have hstream : emit lvl (PyVal.dict ((k, v) :: kvs)) ++ rest =
              '\x7b' :: (nlInd (lvl + 1) ++ (escStr k ++ (':' :: ' ' ::
                (emit (lvl + 1) v ++ (emitObjRest (lvl + 1) kvs ++
                  (nlInd lvl ++ ('\x7d' :: rest))))))) := by
            simp [emit]
          have hsk : skipWs (nlInd (lvl + 1) ++ (escStr k ++ (':' :: ' ' ::
              (emit (lvl + 1) v ++ (emitObjRest (lvl + 1) kvs ++
                (nlInd lvl ++ ('\x7d' :: rest))))))) =
              '"' :: (k.toList.flatMap escChar ++ ('"' :: (':' :: ' ' ::
                (emit (lvl + 1) v ++ (emitObjRest (lvl + 1) kvs ++
                  (nlInd lvl ++ ('\x7d' :: rest))))))) := by
            rw [skipWs_nlInd,
              show escStr k ++ (':' :: ' ' :: (emit (lvl + 1) v ++
                  (emitObjRest (lvl + 1) kvs ++ (nlInd lvl ++ ('\x7d' :: rest))))) =
                '"' :: (k.toList.flatMap escChar ++ ('"' :: (':' :: ' ' ::
                  (emit (lvl + 1) v ++ (emitObjRest (lvl + 1) kvs ++
                    (nlInd lvl ++ ('\x7d' :: rest)))))))
                from by simp [escStr],
              skipWs_cons_not _ _ (by decide)]
          rw [hstream, parseVal_objCons f _ '"' _ hsk (by decide),
            show ('"' : Char) :: (k.toList.flatMap escChar ++ ('"' :: (':' :: ' ' ::
                (emit (lvl + 1) v ++ (emitObjRest (lvl + 1) kvs ++
                  (nlInd lvl ++ ('\x7d' :: rest))))))) =
              escStr k ++ ':' :: ' ' :: (emit (lvl + 1) v ++
                (emitObjRest (lvl + 1) kvs ++ (nlInd lvl ++ ('\x7d' :: rest))))
              from by simp [escStr],
            (ih (pboundD ((k, v) :: kvs)) hlt).2.2 k v kvs le_rfl (lvl + 1) lvl rest f hfuel]
          rfl
    · -- a non-empty array-item stream
      intro x xs hN lvl m rest f hf
      obtain ⟨f, rfl⟩ : ∃ g, f = g + 1 :=
        ⟨f - 1, by rw [pboundL_cons] at hf; omega⟩
      have hbx : pbound x ≤ f ∧ pboundL xs ≤ f ∧ pbound x < N ∧ pboundL xs < N := by
        rw [pboundL_cons] at hN hf
        have h1 := pbound_pos x
        have h2 := pboundL_pos xs
        omega
      have hA := (ih (pbound x) hbx.2.2.1).1 x le_rfl lvl
        (emitArrRest lvl xs ++ (nlInd m ++ ']' :: rest)) f hbx.1 (restOk_arr lvl m xs rest)
      cases xs with
      | nil =>
        have h1 : skipWs (emitArrRest lvl [] ++ (nlInd m ++ ']' :: rest)) = ']' :: rest := by
          rw [show emitArrRest lvl [] ++ (nlInd m ++ ']' :: rest) =
              nlInd m ++ (']' :: rest) from by simp [emitArrRest],
            skipWs_nlInd, skipWs_cons_not _ _ (by decide)]
        exact parseArrItems_last f _ _ _ x hA h1
      | cons y ys =>
        have h1 : skipWs (emitArrRest lvl (y :: ys) ++ (nlInd m ++ ']' :: rest)) =
            ',' :: (nlInd lvl ++ (emit lvl y ++ (emitArrRest lvl ys ++
              (nlInd m ++ ']' :: rest)))) := by
          rw [show emitArrRest lvl (y :: ys) ++ (nlInd m ++ ']' :: rest) =
              ',' :: (nlInd lvl ++ (emit lvl y ++ (emitArrRest lvl ys ++
                (nlInd m ++ ']' :: rest)))) from by simp [emitArrRest]]
          exact skipWs_cons_not _ _ (by decide)
        have hrec : parseArrItems f (skipWs (nlInd lvl ++ (emit lvl y ++
            (emitArrRest lvl ys ++ (nlInd m ++ ']' :: rest))))) = some (y :: ys, rest) := by
          rw [skipWs_nlInd, skipWs_emit]
          exact (ih (pboundL (y :: ys)) hbx.2.2.2).2.1 y ys le_rfl lvl m rest f hbx.2.1
        exact parseArrItems_comma f _ _ _ x (y :: ys) rest hA h1 hrec
    · -- a non-empty object-member stream
      intro k v kvs hN lvl m rest f hf
      obtain ⟨f, rfl⟩ : ∃ g, f = g + 1 :=
        ⟨f - 1, by rw [pboundD_cons] at hf; omega⟩
      have hbv : pbound v ≤ f ∧ pboundD kvs ≤ f ∧ pbound v < N ∧ pboundD kvs < N := by
        rw [pboundD_cons] at hN hf
        have h1 := pbound_pos v
        have h2 := pboundD_pos kvs
        omega
      rw [show escStr k ++ ':' :: ' ' :: (emit lvl v ++ (emitObjRest lvl kvs ++
            (nlInd m ++ '\x7d' :: rest))) =
          '"' :: (k.toList.flatMap escChar ++ ('"' :: (':' :: ' ' :: (emit lvl v ++
            (emitObjRest lvl kvs ++ (nlInd m ++ '\x7d' :: rest))))))
          from by simp [escStr]]
      have hps : parseStrBody ((k.toList.flatMap escChar ++ ('"' :: (':' :: ' ' ::
          (emit lvl v ++ (emitObjRest lvl kvs ++ (nlInd m ++ '\x7d' :: rest)))))).length + 1)
          (k.toList.flatMap escChar ++ ('"' :: (':' :: ' ' :: (emit lvl v ++
            (emitObjRest lvl kvs ++ (nlInd m ++ '\x7d' :: rest)))))) =
          some (k.toList, ':' :: ' ' :: (emit lvl v ++ (emitObjRest lvl kvs ++
            (nlInd m ++ '\x7d' :: rest)))) :=
        parseStrBody_roundtrip k.toList _ _
          (by
            have hl := flatMap_escChar_length k.toList
            simp only [List.length_append, List.length_cons]
            omega)
      have h1 : skipWs (':' :: ' ' :: (emit lvl v ++ (emitObjRest lvl kvs ++
          (nlInd m ++ '\x7d' :: rest)))) =
          ':' :: (' ' :: (emit lvl v ++ (emitObjRest lvl kvs ++
            (nlInd m ++ '\x7d' :: rest)))) :=
        skipWs_cons_not _ _ (by decide)
      have hvp : parseVal f (skipWs (' ' :: (emit lvl v ++ (emitObjRest lvl kvs ++
          (nlInd m ++ '\x7d' :: rest))))) =
          some (v, emitObjRest lvl kvs ++ (nlInd m ++ '\x7d' :: rest)) := by
        rw [skipWs_space, skipWs_emit]
        exact (ih (pbound v) hbv.2.2.1).1 v le_rfl lvl
          (emitObjRest lvl kvs ++ (nlInd m ++ '\x7d' :: rest)) f hbv.1
          (restOk_obj lvl m kvs rest)
      cases kvs with
      | nil =>
        have h3 : skipWs (emitObjRest lvl [] ++ (nlInd m ++ '\x7d' :: rest)) =
            '\x7d' :: rest := by
          rw [show emitObjRest lvl [] ++ (nlInd m ++ '\x7d' :: rest) =
              nlInd m ++ ('\x7d' :: rest) from by simp [emitObjRest],
            skipWs_nlInd, skipWs_cons_not _ _ (by decide)]
        exact parseObjItems_closed f _ k.toList _ _ _ rest v hps h1 hvp h3
      | cons kv2 kvs2 =>
        obtain ⟨k2, v2⟩ := kv2
        have h3 : skipWs (emitObjRest lvl ((k2, v2) :: kvs2) ++
            (nlInd m ++ '\x7d' :: rest)) =
            ',' :: (nlInd lvl ++ (escStr k2 ++ ':' :: ' ' :: (emit lvl v2 ++
              (emitObjRest lvl kvs2 ++ (nlInd m ++ '\x7d' :: rest))))) := by
          rw [show emitObjRest lvl ((k2, v2) :: kvs2) ++ (nlInd m ++ '\x7d' :: rest) =
              ',' :: (nlInd lvl ++ (escStr k2 ++ ':' :: ' ' :: (emit lvl v2 ++
                (emitObjRest lvl kvs2 ++ (nlInd m ++ '\x7d' :: rest)))))
              from by simp [emitObjRest]]
          exact skipWs_cons_not _ _ (by decide)
        have hrec : parseObjItems f (skipWs (nlInd lvl ++ (escStr k2 ++ ':' :: ' ' ::
            (emit lvl v2 ++ (emitObjRest lvl kvs2 ++ (nlInd m ++ '\x7d' :: rest)))))) =
            some ((k2, v2) :: kvs2, rest) := by
          rw [skipWs_nlInd, skipWs_escStr]
          exact (ih (pboundD ((k2, v2) :: kvs2)) hbv.2.2.2).2.2 k2 v2 kvs2 le_rfl
            lvl m rest f hbv.2.1
        exact parseObjItems_comma f _ k.toList _ _ _ _ v ((k2, v2) :: kvs2) rest
          hps h1 hvp h3 hrec

/-- `json.loads(json.dumps(v, indent=2)) == v` for every value `v` the
program can serialize. -/
theorem pyJsonLoads_dumps (v : PyVal) : pyJsonLoads (pyJsonDumps v) = some v := by
  have hfb : pbound v ≤ (emit 0 v).length := (pbound_emit (pbound v)).1 v le_rfl 0
  have hsk : skipWs ((⟨emit 0 v⟩ : String).toList) = emit 0 v := by
    rw [show ((⟨emit 0 v⟩ : String)).toList = emit 0 v from rfl]
    conv_lhs => rw [show emit 0 v = emit 0 v ++ ([] : List Char) from by simp]
    rw [skipWs_emit]
    simp
  have hA := (parse_emit_aux (pbound v)).1 v le_rfl 0 [] ((emit 0 v).length + 1)
    (by omega) trivial
  rw [List.append_nil] at hA
  simp only [pyJsonLoads, pyJsonDumps]
  rw [hsk, hA]
  simp [skipWs]

/-- C8 (confirmed).  `export_results(report, "json")` renders the report
with `json.dumps(results, indent=2)`, and parsing that string back with
`json.loads` yields exactly the original report, for every report value
(in particular every report `process_transcript` produces); and for any
`format_type` other than `"json"` and `"text"`, `export_results` raises
`ValueError("Unknown format type: " + format_type)`. -/
theorem export_results_roundtrip_and_invalid_format :
    (∀ report : PyVal,
      export_results report ("json") = .ok (pyJsonDumps report) ∧
      pyJsonLoads (pyJsonDumps report) = some report) ∧
    (∀ (report : PyVal) (fmt : String), fmt ≠ "json" → fmt ≠ "text" →
      export_results report fmt =
        .error (.valueError (("Unknown format type: ") ++ fmt))) := by
  refine ⟨fun report => ⟨rfl, pyJsonLoads_dumps report⟩, fun report fmt h1 h2 => ?_⟩
  simp [export_results, h1, h2]

theorem export_results_roundtrip_and_invalid_format_witness :
    pyJsonLoads (pyJsonDumps (.dict [("a", .list [.int (-3), .str "x", .none]),
        ("b", .dict [("c", .bool true)])])) =
      some (.dict [("a", .list [.int (-3), .str "x", .none]),
        ("b", .dict [("c", .bool true)])]) ∧
    export_results (.dict []) ("xml") =
      .error (.valueError (("Unknown format type: ") ++ ("xml"))) :=
  ⟨(export_results_roundtrip_and_invalid_format.1 _).2,
   export_results_roundtrip_and_invalid_format.2 (.dict []) ("xml")
     (by decide) (by decide)⟩

end PhysNote
